import Mathlib

/-!
Verification of the daily-research-bot scraping scripts.

Shallow embedding of the JavaScript sources (src/index.js, src/scraper.js,
src/stealth_search.js, src/unnamed/part_001, src/unnamed/part_002,
src/unnamed/part_005) into Lean 4. Strings are modelled as lists of
characters; the JavaScript regular-expression replacements are modelled by
hand-written scanners that follow the leftmost-match, global-replace
semantics of the source patterns. Fallible external operations (network,
parsing) are modelled by oracles returning `Except`, and browser resource
usage by an event trace.
-/

/-! ## Character classes -/

/-- Printable ASCII range x20..x7E, as used by the source regexes. -/
def isPrintableAscii (c : Char) : Bool :=
  0x20 ≤ c.toNat && c.toNat ≤ 0x7E

/-- The character class of the JavaScript regex escape backslash-s
(whitespace), including the Unicode space separators JavaScript lists. -/
def isJsWs (c : Char) : Bool :=
  let n := c.toNat
  n == 0x20 || n == 0x09 || n == 0x0A || n == 0x0B || n == 0x0C || n == 0x0D ||
  n == 0xA0 || n == 0x1680 || (0x2000 ≤ n && n ≤ 0x200A) || n == 0x2028 ||
  n == 0x2029 || n == 0x202F || n == 0x205F || n == 0x3000 || n == 0xFEFF

/-- ASCII letter a-z or A-Z. -/
def isAsciiLetter (c : Char) : Bool :=
  (0x41 ≤ c.toNat && c.toNat ≤ 0x5A) || (0x61 ≤ c.toNat && c.toNat ≤ 0x7A)

/-- ASCII digit 0-9. -/
def isAsciiDigit (c : Char) : Bool :=
  0x30 ≤ c.toNat && c.toNat ≤ 0x39

/-- The character class [a-zA-Z0-9], as in the regex [a-z0-9] with flag i. -/
def isAsciiAlnum (c : Char) : Bool :=
  isAsciiLetter c || isAsciiDigit c

/-- The regex word class backslash-w, i.e. [A-Za-z0-9_]. -/
def isWordChar (c : Char) : Bool :=
  isAsciiAlnum c || c == '_'

/-- ASCII lower-casing, the effect of toLowerCase on the ASCII range
(the URLs and phrases the source lower-cases are ASCII). -/
def jsLowerChar (c : Char) : Char :=
  if 0x41 ≤ c.toNat && c.toNat ≤ 0x5A then Char.ofNat (c.toNat + 32) else c

/-! ## JavaScript string primitives on lists of characters -/

/-- The substring test String.prototype.includes (and Buffer.includes), on
lists: the pattern occurs contiguously somewhere in the list. -/
def containsSeq [BEq α] (pat : List α) : List α → Bool
  | [] => pat.isPrefixOf []
  | c :: rest => pat.isPrefixOf (c :: rest) || containsSeq pat rest

/-- String.prototype.includes on strings. -/
def jsIncludes (s pat : String) : Bool :=
  containsSeq pat.data s.data

/-- String.prototype.endsWith on strings. -/
def jsEndsWith (s suffix : String) : Bool :=
  suffix.data.isSuffixOf s.data

/-- String.prototype.toLowerCase (ASCII part). -/
def jsToLower (s : String) : String :=
  ⟨s.data.map jsLowerChar⟩

/-- String.prototype.trim on a character list: drop JavaScript whitespace
from both ends. -/
def jsTrimL (l : List Char) : List Char :=
  ((l.dropWhile isJsWs).reverse.dropWhile isJsWs).reverse

/-- String.prototype.trim on strings. -/
def jsTrim (s : String) : String :=
  ⟨jsTrimL s.data⟩

/-- Case-insensitive match of an ASCII pattern at the head of a list:
returns the number of characters consumed when the pattern matches. -/
def matchCI (pat : List Char) (l : List Char) : Option Nat :=
  if (l.take pat.length).map jsLowerChar = pat.map jsLowerChar ∧
      pat.length ≤ l.length then
    some pat.length
  else
    none

/-- JavaScript truthiness of a possibly-absent string: null, undefined and
the empty string are falsy.  `jsOrStr o d` models `o || d`. -/
def jsOrStr (o : Option String) (d : String) : String :=
  match o with
  | none => d
  | some s => if s = "" then d else s

/-! ## Generic global regex replacement

`replaceScan` walks the list left to right with fuel (one unit per scan
position, enough fuel being the length of the list).  At each position the
matcher either matches a nonempty prefix, which is replaced and skipped,
or the head character is kept and the scan moves on by one: exactly the
semantics of String.prototype.replace with a global regex whose matches
are nonempty. -/

def replaceScan (m : List Char → Option (Nat × List Char)) :
    Nat → List Char → List Char
  | 0, l => l
  | _ + 1, [] => []
  | fuel + 1, c :: rest =>
    match m (c :: rest) with
    | some (len, repl) =>
      if len = 0 then c :: replaceScan m fuel rest
      else repl ++ replaceScan m fuel (List.drop len (c :: rest))
    | none => c :: replaceScan m fuel rest

/-- Global replace over a whole list. -/
def replaceAll (m : List Char → Option (Nat × List Char)) (l : List Char) :
    List Char :=
  replaceScan m l.length l

/-! ## sanitizeContent (src/index.js lines 31-93)

Each regex replacement of the source is modelled by a matcher fed to
`replaceAll`.  The matchers follow the leftmost, greedy, global semantics
of the corresponding JavaScript patterns. -/

/-- The corrupted-encoding characters of the classes on lines 38-39. -/
def corruptChars1 : List Char := ['´', 'ä', 'Ô', 'ð', 'ô', '¤', '€', '„']

/-- The extended corrupted/special class on line 42. -/
def corruptChars3 : List Char :=
  corruptChars1 ++ ['¢', '£', '¥', '©', '®', '™', '•', '†', '‡', '§', '¶']

/-- Line 38: [ABCD][corrupt][0-9A-Za-z]* replaced by a space. -/
def matchCorrupt1 : List Char → Option (Nat × List Char)
  | c0 :: c1 :: rest =>
    if ['A', 'B', 'C', 'D'].contains c0 && corruptChars1.contains c1 then
      some (2 + (rest.takeWhile isAsciiAlnum).length, [' '])
    else none
  | _ => none

/-- Line 39: [CD][A-Za-z][0-9A-Za-z or corrupt]+ replaced by a space. -/
def matchCorrupt2 : List Char → Option (Nat × List Char)
  | c0 :: c1 :: rest =>
    if (c0 == 'C' || c0 == 'D') && isAsciiLetter c1 then
      let run := rest.takeWhile fun c => isAsciiAlnum c || corruptChars1.contains c
      if 1 ≤ run.length then some (2 + run.length, [' ']) else none
    else none
  | _ => none

/-- Line 42: a maximal non-whitespace token containing one of the special
characters, replaced by a space. -/
def matchSpecialToken : List Char → Option (Nat × List Char)
  | [] => none
  | c :: rest =>
    if isJsWs c then none
    else
      let tok := (c :: rest).takeWhile fun d => ! isJsWs d
      if tok.any (fun d => corruptChars3.contains d) then some (tok.length, [' '])
      else none

/-- The tail of the pattern on line 45: a greedy [a-z and whitespace]+ run
(flag i) that must stop at a line end ($ with flag m): either the end of the
input or just before a newline.  Returns the number of characters consumed. -/
def refTailMatch (l : List Char) : Option Nat :=
  let run := l.takeWhile fun c => isAsciiLetter c || isJsWs c
  if run.length = 0 then none
  else if run.length = l.length then some run.length
  else
    let revIdx := run.reverse.findIdx fun c => c == '\n'
    if revIdx < run.length then
      let k := run.length - 1 - revIdx
      if 1 ≤ k then some k else none
    else none

/-- Line 45: a caret, optional whitespace, an optional case-insensitive
group Jump up to with optional colon, then letters/whitespace up to a line
end; the whole match is deleted.  The regex prefers the path through the
optional group. -/
def matchRefLine : List Char → Option (Nat × List Char)
  | '^' :: rest =>
    let wsLen := (rest.takeWhile isJsWs).length
    let afterWs := rest.drop wsLen
    let withGroup : Option Nat :=
      match matchCI "jump up to".data afterWs with
      | some glen =>
        let afterG := afterWs.drop glen
        let (colonLen, afterC) :=
          match afterG with
          | ':' :: r => (1, r)
          | r => (0, r)
        match refTailMatch afterC with
        | some t => some (wsLen + glen + colonLen + t)
        | none => none
      | none => none
    (match withGroup with
     | some n => some (1 + n, [])
     | none =>
       match refTailMatch rest with
       | some t => some (1 + t, [])
       | none => none)
  | _ => none

/-- Line 46: a bracketed number such as [1], deleted. -/
def matchBracketNum : List Char → Option (Nat × List Char)
  | '[' :: rest =>
    let ds := rest.takeWhile isAsciiDigit
    if 1 ≤ ds.length && ((rest.drop ds.length).head? == some ']') then
      some (ds.length + 2, [])
    else none
  | _ => none

/-- A case-insensitive literal (lines 47-50, 59-60), deleted. -/
def matchLitCI (pat : String) (l : List Char) : Option (Nat × List Char) :=
  match matchCI pat.data l with
  | some n => some (n, [])
  | none => none

/-- Line 53: Archived from the original, then characters up to and
including the first period, deleted. -/
def matchArchived (l : List Char) : Option (Nat × List Char) :=
  match matchCI "archived from the original".data l with
  | some n =>
    let rest := l.drop n
    let mid := rest.takeWhile fun c => c != '.'
    if (rest.drop mid.length).head? == some '.' then
      some (n + mid.length + 1, [])
    else none
  | none => none

/-- Line 54: Retrieved, digits, whitespace, a word, whitespace, digits,
optional period, deleted. -/
def matchRetrievedDMY (l : List Char) : Option (Nat × List Char) :=
  match matchCI "retrieved ".data l with
  | some n =>
    let r1 := l.drop n
    let d1 := r1.takeWhile isAsciiDigit
    if d1.length = 0 then none else
    let r2 := r1.drop d1.length
    let w1 := r2.takeWhile isJsWs
    if w1.length = 0 then none else
    let r3 := r2.drop w1.length
    let m1 := r3.takeWhile isWordChar
    if m1.length = 0 then none else
    let r4 := r3.drop m1.length
    let w2 := r4.takeWhile isJsWs
    if w2.length = 0 then none else
    let r5 := r4.drop w2.length
    let d2 := r5.takeWhile isAsciiDigit
    if d2.length = 0 then none else
    let r6 := r5.drop d2.length
    let dot := if r6.head? == some '.' then 1 else 0
    some (n + d1.length + w1.length + m1.length + w2.length + d2.length + dot, [])
  | none => none

/-- Line 55: Retrieved, a word, whitespace, digits, optional comma,
whitespace, digits, optional period, deleted. -/
def matchRetrievedMDY (l : List Char) : Option (Nat × List Char) :=
  match matchCI "retrieved ".data l with
  | some n =>
    let r1 := l.drop n
    let m1 := r1.takeWhile isWordChar
    if m1.length = 0 then none else
    let r2 := r1.drop m1.length
    let w1 := r2.takeWhile isJsWs
    if w1.length = 0 then none else
    let r3 := r2.drop w1.length
    let d1 := r3.takeWhile isAsciiDigit
    if d1.length = 0 then none else
    let r4 := r3.drop d1.length
    let comma := if r4.head? == some ',' then 1 else 0
    let r5 := r4.drop comma
    let w2 := r5.takeWhile isJsWs
    if w2.length = 0 then none else
    let r6 := r5.drop w2.length
    let d2 := r6.takeWhile isAsciiDigit
    if d2.length = 0 then none else
    let r7 := r6.drop d2.length
    let dot := if r7.head? == some '.' then 1 else 0
    some (n + m1.length + w1.length + d1.length + comma + w2.length + d2.length + dot, [])
  | none => none

/-- Line 58: a caret, space, letter, space, then a double-quoted segment
and a period, deleted. -/
def matchRefQuote : List Char → Option (Nat × List Char)
  | '^' :: ' ' :: c :: ' ' :: '"' :: rest =>
    if isAsciiLetter c then
      let q := rest.takeWhile fun d => d != '"'
      match rest.drop q.length with
      | '"' :: '.' :: _ => some (5 + q.length + 2, [])
      | _ => none
    else none
  | _ => none

/-! Line filtering, lines 63-83. -/

/-- Line 71: the trimmed line starts with a caret, a bracket, or digits and
a period, followed by a whitespace character. -/
def startsRefPattern (t : List Char) : Bool :=
  match t with
  | '^' :: c :: _ => isJsWs c
  | '[' :: c :: _ => isJsWs c
  | _ =>
    let ds := t.takeWhile isAsciiDigit
    if 1 ≤ ds.length then
      match t.drop ds.length with
      | '.' :: c :: _ => isJsWs c
      | _ => false
    else false

/-- Line 74: characters outside letters, digits, whitespace and the listed
punctuation. -/
def isSpecialForRatio (c : Char) : Bool :=
  ! (isAsciiAlnum c || isJsWs c ||
     ['.', ',', '!', '?', ';', ':', '\'', '"', '(', ')', '-'].contains c)

/-- The URL pattern http or https, colon-slash-slash, then at least one
non-whitespace character, starting at the head of the list. -/
def matchUrlAt (l : List Char) : Bool :=
  match l with
  | 'h' :: 't' :: 't' :: 'p' :: rest =>
    let rest2 := match rest with
      | 's' :: r => r
      | r => r
    match rest2 with
    | ':' :: '/' :: '/' :: r => r.head?.any fun c => ! isJsWs c
    | _ => false
  | _ => false

/-- Line 78: the URL pattern occurs somewhere in the line. -/
def hasUrl : List Char → Bool
  | [] => false
  | c :: rest => matchUrlAt (c :: rest) || hasUrl rest

/-- Lines 64-81: keep a line only when its trimmed form is at least 20
characters, does not look like a bare reference, has a special-character
ratio of at most 0.15, and is not a short URL-bearing line.  The 0.15
float threshold is modelled by the exact rational comparison
20 * special > 3 * length. -/
def lineKeep (line : List Char) : Bool :=
  let t := jsTrimL line
  if t.length < 20 then false
  else if startsRefPattern t then false
  else if 3 * t.length < 20 * t.countP isSpecialForRatio then false
  else if hasUrl t && t.length < 100 then false
  else true

/-! Final character-level passes, lines 86-92. -/

/-- Line 86: every character outside printable ASCII, newline and tab is
replaced by a space (the class matches one character at a time). -/
def matchNonPrintable : List Char → Option (Nat × List Char)
  | c :: _ =>
    if isPrintableAscii c || c == '\n' || c == '\t' then none
    else some (1, [' '])
  | [] => none

/-- Line 89: a maximal run of spaces and tabs is replaced by one space. -/
def matchSpaceTabRun : List Char → Option (Nat × List Char)
  | c :: rest =>
    if c == ' ' || c == '\t' then
      some (1 + (rest.takeWhile fun d => d == ' ' || d == '\t').length, [' '])
    else none
  | [] => none

/-- Line 90: a newline, whitespace, newline, whitespace, newline pattern.
With greedy whitespace stars the match runs from the first to the last
newline of the maximal whitespace run (which must hold at least three
newlines), replaced by two newlines. -/
def matchTripleNewline : List Char → Option (Nat × List Char)
  | '\n' :: rest =>
    let run := '\n' :: rest.takeWhile isJsWs
    if 3 ≤ run.count '\n' then
      let revIdx := run.reverse.findIdx fun c => c == '\n'
      some (run.length - revIdx, ['\n', '\n'])
    else none
  | _ => none

/-- The body of sanitizeContent for a non-empty input, lines 34-92:
the regex replacements in source order, the line filter, the final
character passes and the trim. -/
def sanitizeSteps (l : List Char) : List Char :=
  let s1 := replaceAll matchCorrupt1 l
  let s2 := replaceAll matchCorrupt2 s1
  let s3 := replaceAll matchSpecialToken s2
  let s4 := replaceAll matchRefLine s3
  let s5 := replaceAll matchBracketNum s4
  let s6 := replaceAll (matchLitCI "[citation needed]") s5
  let s7 := replaceAll (matchLitCI "[edit]") s6
  let s8 := replaceAll (matchLitCI "[show]") s7
  let s9 := replaceAll (matchLitCI "[hide]") s8
  let s10 := replaceAll matchArchived s9
  let s11 := replaceAll matchRetrievedDMY s10
  let s12 := replaceAll matchRetrievedMDY s11
  let s13 := replaceAll matchRefQuote s12
  let s14 := replaceAll (matchLitCI "(jpg)") s13
  let s15 := replaceAll (matchLitCI "(pdf)") s14
  let kept := (s15.splitOn '\n').filter lineKeep
  let joined := List.intercalate ['\n'] kept
  let f1 := replaceAll matchNonPrintable joined
  let f2 := replaceAll matchSpaceTabRun f1
  let f3 := replaceAll matchTripleNewline f2
  jsTrimL f3

/-- src/index.js lines 31-93: sanitizeContent.  A null or empty input is
falsy and returns the empty string (line 32). -/
def sanitizeContent (text : Option String) : String :=
  match text with
  | none => ""
  | some t => if t = "" then "" else ⟨sanitizeSteps t.data⟩

/-! ## countWords and formatOutput (src/index.js lines 95-113) -/

/- Splitting on whitespace runs, the semantics of split with the regex
backslash-s-plus: `splitWsGo` is scanning inside (or before) a word with
the accumulated word reversed in `cur`; `splitWsAux` has just crossed a
whitespace run. -/
mutual

def splitWsGo (cur : List Char) : List Char → List (List Char)
  | [] => [cur.reverse]
  | c :: rest =>
    if isJsWs c then cur.reverse :: splitWsAux rest
    else splitWsGo (c :: cur) rest

def splitWsAux : List Char → List (List Char)
  | [] => [[]]
  | c :: rest =>
    if isJsWs c then splitWsAux rest
    else splitWsGo [c] rest

end

/-- JavaScript split on the whitespace-run regex. -/
def jsSplitWs (l : List Char) : List (List Char) :=
  splitWsGo [] l

/-- src/index.js lines 95-97: countWords trims, splits on whitespace runs
and counts the non-empty pieces. -/
def countWords (text : String) : Nat :=
  ((jsSplitWs (jsTrimL text.data)).filter fun w => 0 < w.length).length

/-- Specification-side word count: the number of maximal non-whitespace
runs, counted by a single pass.  The flag records whether the previous
character was part of a word. -/
def tokCount : Bool → List Char → Nat
  | _, [] => 0
  | prevWord, c :: rest =>
    if isJsWs c then tokCount false rest
    else (if prevWord then 0 else 1) + tokCount true rest

/-- The per-document record of src/index.js lines 105-112, with exactly
the six fields type, title, url, date, wordCount and content. -/
structure DocRecord where
  type : String
  title : String
  url : String
  date : String
  wordCount : Nat
  content : String
deriving Repr, DecidableEq

/-- Line 102: any run of two or more whitespace characters is replaced by
one space; a single whitespace character is left alone. -/
def matchWs2Run : List Char → Option (Nat × List Char)
  | c :: rest =>
    if isJsWs c then
      let run := 1 + (rest.takeWhile isJsWs).length
      if 2 ≤ run then some (run, [' ']) else none
    else none
  | [] => none

/-- src/index.js lines 99-113: formatOutput.  The call to new Date is
modelled by the `now` argument; `title` is an optional string whose falsy
values fall back to Untitled Document (line 107). -/
def formatOutput (now : String) (type : String) (title : Option String)
    (url : String) (content : String) : DocRecord :=
  let sanitized := sanitizeContent (some content)
  let cleanText := jsTrim ⟨replaceAll matchWs2Run sanitized.data⟩
  { type := type
    title := ⟨(jsOrStr title "Untitled Document").data.filter isPrintableAscii⟩
    url := url
    date := now
    wordCount := countWords cleanText
    content := cleanText }

/-! ## Volume file names (src/index.js line 116, src/unnamed/part_001
lines 29-34, src/unnamed/part_005 lines 17-21) -/

/-- The query sanitization shared by the volume-name builders: every
character outside [a-zA-Z0-9] becomes an underscore. -/
def sanitizeQueryJS (q : String) : String :=
  ⟨q.data.map fun c => if isAsciiAlnum c then c else '_'⟩

/-- src/index.js line 116: the PDF volume file name. -/
def savePDFVolumeName (volNum : Nat) (query : String) : String :=
  "Volume_" ++ Nat.repr volNum ++ "_(" ++ sanitizeQueryJS query ++ ").pdf"

/-- src/unnamed/part_001 line 30: the text volume file name. -/
def saveVolumeName (volNum : Nat) (query : String) : String :=
  "Volume_" ++ Nat.repr volNum ++ "_(" ++ sanitizeQueryJS query ++ ").txt"

/-- A maximal run of underscores replaced by one underscore
(the plus-quantified underscore regex of part_005 line 18). -/
def matchUnderscoreRun : List Char → Option (Nat × List Char)
  | '_' :: rest => some (1 + (rest.takeWhile fun c => c == '_').length, ['_'])
  | _ => none

/-- The anchored underscore regex of part_005 line 18: one leading and one
trailing underscore are removed. -/
def stripEdgeUnderscores (l : List Char) : List Char :=
  let a := match l with
    | '_' :: r => r
    | r => r
  match a.getLast? with
  | some '_' => a.dropLast
  | _ => a

/-- src/unnamed/part_005 lines 17-18: the safe topic of
generateResearchPDF. -/
def safeTopic (query : String) : List Char :=
  stripEdgeUnderscores (replaceAll matchUnderscoreRun (sanitizeQueryJS query).data)

/-- src/unnamed/part_005 lines 17-19: the research PDF file name. -/
def generateResearchPDFName (volNum : Nat) (query : String) : String :=
  (⟨safeTopic query⟩ : String) ++ "_Research_File_" ++ Nat.repr volNum ++ ".pdf"

/-! ## isRealPDF (src/unnamed/part_002 lines 29 and 185-203)

The file system is modelled as the optional byte contents of the path.
Note that fs.readFileSync ignores the start and end options of line 200
(they belong to createReadStream), so the final check scans the whole
file, not only its first 1024 bytes. -/

/-- 50 KB minimum, part_002 line 29. -/
def MIN_SIZE_BYTES : Nat := 50 * 1024

/-- The bytes of the PDF magic header, percent P D F. -/
def pdfMagic : List Nat := [0x25, 0x50, 0x44, 0x46]

/-- src/unnamed/part_002 lines 185-203: isRealPDF as implemented. -/
def isRealPDF (file : Option (List Nat)) : Bool :=
  match file with
  | none => false
  | some bytes =>
    if bytes.length < MIN_SIZE_BYTES then false
    else if bytes.take 4 = pdfMagic then true
    else containsSeq pdfMagic bytes

/-- isRealPDF as the claim states it: the fallback scan is limited to the
first 1024 bytes of the file (the intent of the comment on part_002 line
199 and of the ignored start and end options on line 200). -/
def isRealPDFClaimed (file : Option (List Nat)) : Bool :=
  match file with
  | none => false
  | some bytes =>
    decide (MIN_SIZE_BYTES ≤ bytes.length) &&
      (decide (bytes.take 4 = pdfMagic) || containsSeq pdfMagic (bytes.take 1024))

/-! ## Per-link processing (src/index.js lines 629-870)

Fallible external operations (network requests, page loading, parsing)
are modelled by an oracle whose fields are `Except` values; browser
context and page lifecycle operations (browser.newContext,
context.newPage, context.close) are infrastructure, not failures at the
network, parsing or validation level, and are modelled as infallible
while recording an event trace.  `EM` threads the trace and propagates
errors, keeping the trace on an error exactly as the JavaScript finally
blocks observe it. -/

/-- Browser lifecycle events of one processLink call. -/
inductive BrowserEvent
  | openContext
  | openPage
  | closeContext
deriving DecidableEq, Repr

/-- Errors thrown by the modelled external operations. -/
abbrev JsErr := String

/-- The exception-plus-trace monad of the embedding. -/
def EM (α : Type) : Type := List BrowserEvent → Except JsErr α × List BrowserEvent

instance : Monad EM where
  pure a := fun s => (Except.ok a, s)
  bind m f := fun s =>
    match m s with
    | (Except.ok a, s') => f a s'
    | (Except.error e, s') => (Except.error e, s')

/-- Run an oracle operation: it may throw but records no event. -/
def emLift (r : Except JsErr α) : EM α := fun s => (r, s)

/-- Record a browser lifecycle event. -/
def emit (ev : BrowserEvent) : EM Unit := fun s => (Except.ok (), s ++ [ev])

/-- A JavaScript try/catch whose catch block runs the handler. -/
def jsTryCatch (m : EM α) (handler : EM α) : EM α := fun s =>
  match m s with
  | (Except.ok a, s') => (Except.ok a, s')
  | (Except.error _, s') => handler s'

/-- A JavaScript try/finally: the finalizer runs on both outcomes and an
error thrown by it replaces the result. -/
def jsTryFinally (m : EM α) (fin : EM Unit) : EM α := fun s =>
  match m s with
  | (r, s') =>
    match fin s' with
    | (Except.ok _, s'') => (r, s'')
    | (Except.error e, s'') => (Except.error e, s'')

/-- The axios PDF response of processPDF: its content-type header and the
byte length of its data. -/
structure PdfResp where
  contentType : String
  dataLen : Nat

/-- The result of pdf-parse: extracted text and the optional info title. -/
structure PdfData where
  text : String
  infoTitle : Option String

/-- The page.goto response, reduced to its content-type header. -/
structure PageResp where
  contentType : String

/-- The result of Readability parse: a possibly-null article. -/
structure Article where
  title : Option String
  textContent : Option String

/-- The external world as seen by one processLink call. -/
structure LinkOracle where
  /-- The clock for new Date calls. -/
  now : String
  /-- axios.get of the PDF URL (processPDF line 633); may throw. -/
  axiosPdf : Except JsErr PdfResp
  /-- pdf-parse of the downloaded bytes (line 655); may throw. -/
  pdfParse : Except JsErr PdfData
  /-- page.route (line 674); inside the try block. -/
  route : Except JsErr Unit
  /-- page.goto (line 683): may throw, or return a null response. -/
  goto : Except JsErr (Option PageResp)
  /-- page.waitForLoadState networkidle (line 703); its failure is caught
  by the inner try. -/
  waitNetworkIdle : Except JsErr Unit
  /-- page.content (line 712); may throw.  The html feeds the pure DOM
  reads below. -/
  pageContent : Except JsErr Unit
  /-- Readability parse (line 722); may throw or return null. -/
  readability : Except JsErr (Option Article)
  /-- document.querySelector(sel) and its textContent, per selector of
  strategy 2 (lines 741-744). -/
  selText : String → Option String
  /-- The h1 textContent of the title fallback chain (line 747). -/
  h1Text : Option String
  /-- The title tag textContent (lines 748 and 763). -/
  titleTagText : Option String
  /-- document.body textContent after the node removal of strategy 3
  (line 762). -/
  bodyTextCleaned : Option String
  /-- page.title (line 768); may throw (inside the try block). -/
  pageTitle : Except JsErr String
  /-- page.unroute (lines 696 and 771); inside the try block. -/
  unroute : Except JsErr Unit

/-- src/index.js lines 629-668: the body of processPDF (its try block). -/
def processPDFBody (o : LinkOracle) (minWords : Nat) (url : String) :
    EM (Option DocRecord) := do
  let resp ← emLift o.axiosPdf
  if ! jsIncludes resp.contentType "pdf" && resp.dataLen < 50000 then
    pure none
  else if resp.dataLen < 10000 then
    pure none
  else
    let data ← emLift o.pdfParse
    let wordCount := countWords data.text
    if minWords ≤ wordCount then
      pure (some (formatOutput o.now "PDF"
        (some (jsOrStr data.infoTitle "PDF Document")) url data.text))
    else
      pure none

/-- src/index.js lines 629-668: processPDF never lets its body escape; the
catch logs and the function falls through to return null. -/
def processPDF (o : LinkOracle) (minWords : Nat) (url : String) :
    EM (Option DocRecord) :=
  jsTryCatch (processPDFBody o minWords url) (pure none)

/-- The selector list of strategy 2, lines 734-739. -/
def contentSelectors : List String :=
  ["article", "main", "[role=\"main\"]", ".content", "#content",
   ".post-content", ".article-content", ".entry-content",
   ".post-body", ".article-body", ".story-body",
   ".page-content", "#main-content", ".main-content"]

/-- Strategy 2, lines 733-752: fold the selectors over the running pair of
title and text, replacing the text when a selector extracts more words and
refreshing the title through the fallback chain. -/
def strategy2Fold (o : LinkOracle) (init : String × String) : String × String :=
  contentSelectors.foldl
    (fun acc sel =>
      let (title, textContent) := acc
      match o.selText sel with
      | some s =>
        if s ≠ "" then
          let extracted := jsTrim s
          if countWords textContent < countWords extracted then
            (if title ≠ "" then title
             else jsOrStr o.h1Text (jsOrStr o.titleTagText ""), extracted)
          else acc
        else acc
      | none => acc)
    init

/-- A maximal whitespace run replaced by one space: the whitespace-plus
regex of line 775. -/
def matchWsRun : List Char → Option (Nat × List Char)
  | c :: rest =>
    if isJsWs c then some (1 + (rest.takeWhile isJsWs).length, [' '])
    else none
  | [] => none

/-- The newline, whitespace star, newline pattern of line 776: from the
first to the last newline of a whitespace run holding at least two
newlines, replaced by two newlines. -/
def matchDoubleNewline : List Char → Option (Nat × List Char)
  | '\n' :: rest =>
    let run := '\n' :: rest.takeWhile isJsWs
    if 2 ≤ run.count '\n' then
      let revIdx := run.reverse.findIdx fun c => c == '\n'
      some (run.length - revIdx, ['\n', '\n'])
    else none
  | _ => none

/-- Lines 774-777: the extracted text cleanup of processWebpage. -/
def cleanupWebText (s : String) : String :=
  jsTrim ⟨replaceAll matchDoubleNewline (replaceAll matchWsRun s.data)⟩

/-- Lines 782-792: the bot-detection heuristic on the cleaned text. -/
def isBotBlocked (textContent : String) (wordCount : Nat) : Bool :=
  let lower := jsToLower textContent
  jsIncludes lower "verify you are human" ||
  jsIncludes lower "please enable javascript" ||
  jsIncludes lower "checking your browser" ||
  jsIncludes lower "cloudflare" ||
  jsIncludes lower "access denied" ||
  jsIncludes lower "403 forbidden" ||
  jsIncludes lower "captcha" ||
  (wordCount < 100 && jsIncludes lower "security")

/-- Lines 733-764: strategies 2 and 3 over the running title and text
pair: selector extraction when the text is still missing or short, then
the body-text fallback with its title chain. -/
def webpageStrategies (o : LinkOracle) (s1 : String × String) :
    String × String :=
  let s2 := if s1.2 = "" ∨ countWords s1.2 < 50 then strategy2Fold o s1 else s1
  if s2.2 = "" ∨ countWords s2.2 < 50 then
    (if s2.1 ≠ "" then s2.1 else jsOrStr o.titleTagText "Untitled",
     jsOrStr o.bodyTextCleaned "")
  else s2

/-- Lines 773-808: text cleanup, word count, bot-detection and the
minimum-words check ending processWebpage. -/
def webpageFinish (o : LinkOracle) (mw : Nat) (url : String)
    (title : String) (raw : String) : Option DocRecord :=
  let textContent := cleanupWebText raw
  let wordCount := countWords textContent
  if isBotBlocked textContent wordCount then none
  else if mw ≤ wordCount then
    some (formatOutput o.now "WEB" (some title) url textContent)
  else none

/-- src/index.js lines 671-809: the body of processWebpage (its try
block).  The unused contentType parameter of the source is kept. -/
def processWebpageBody (o : LinkOracle) (minWords : Nat) (url : String)
    (_contentType : String) : EM (Option DocRecord) := do
  emLift o.route
  let resp ← emLift o.goto
  match resp with
  | none => pure none
  | some r =>
    if jsIncludes r.contentType "pdf" then do
      emLift o.unroute
      processPDF o minWords url
    else do
      jsTryCatch (emLift o.waitNetworkIdle) (pure ())
      emLift o.pageContent
      let s1 : String × String ←
        jsTryCatch
          (do
            let art ← emLift o.readability
            match art with
            | some a =>
              (match a.textContent with
               | some tc =>
                 if tc ≠ "" ∧ 50 < countWords tc then
                   pure (jsOrStr a.title "", tc)
                 else pure ("", "")
               | none => pure ("", ""))
            | none => pure ("", ""))
          (pure ("", ""))
      let s3 := webpageStrategies o s1
      let title ←
        if s3.1 = "" then do
          let t ← emLift o.pageTitle
          pure (jsOrStr (some t) "Untitled")
        else
          pure s3.1
      emLift o.unroute
      pure (webpageFinish o minWords url title s3.2)

/-- src/index.js lines 671-809: processWebpage catches everything its body
throws and returns null. -/
def processWebpage (o : LinkOracle) (minWords : Nat) (url : String)
    (contentType : String) : EM (Option DocRecord) :=
  jsTryCatch (processWebpageBody o minWords url contentType) (pure none)

/-- src/index.js lines 811-870: processLink.  Context and page creation
and the finally-guarded context.close are the emitted events. -/
def processLink (o : LinkOracle) (minWords : Nat) (contentType : String)
    (link : String) : EM (Option DocRecord) :=
  let lowerLink := jsToLower link
  let isDefinitePdf :=
    jsEndsWith lowerLink ".pdf" || jsIncludes lowerLink ".pdf?"
  let mightBePdf :=
    jsIncludes lowerLink "/pdf/" || jsIncludes lowerLink "/pdf?" ||
    jsIncludes lowerLink "downloadpdf" || jsIncludes lowerLink "/fulltext/" ||
    (jsIncludes lowerLink "doi.org" && contentType == "pdfs") ||
    jsIncludes lowerLink "arxiv.org/pdf" ||
    jsIncludes lowerLink "researchgate.net/publication" ||
    jsIncludes lowerLink "academia.edu"
  if isDefinitePdf then
    processPDF o minWords link
  else if contentType == "pdfs" then
    if mightBePdf then do
      let pdfResult ← processPDF o minWords link
      match pdfResult with
      | some r => pure (some r)
      | none => do
        emit BrowserEvent.openContext
        emit BrowserEvent.openPage
        jsTryFinally (processWebpage o minWords link contentType)
          (emit BrowserEvent.closeContext)
    else
      pure none
  else do
    emit BrowserEvent.openContext
    emit BrowserEvent.openPage
    jsTryFinally (processWebpage o minWords link contentType)
      (emit BrowserEvent.closeContext)

/-! ## The main processing loop (src/index.js lines 950-983,
src/unnamed/part_001 lines 372-405)

The loop walks the link array in chunks of CONCURRENCY = 3, counts
processed and successful links, buffers successful documents and flushes a
volume when the running success count is a positive multiple of
DOCS_PER_FILE and the buffer is non-empty; the check runs once per chunk.
The per-link outcome is abstracted as a function from links to optional
documents (processLink is shown elsewhere never to throw). -/

/-- One written volume: its number and the buffered documents it holds. -/
structure VolumeFile (β : Type) where
  volNum : Nat
  sources : List β
deriving Repr, DecidableEq

/-- The mutable state of the main loop, lines 952-955. -/
structure LoopState (β : Type) where
  processedCount : Nat
  successCount : Nat
  currentVolume : Nat
  currentSources : List β
  volumes : List (VolumeFile β)
deriving Repr, DecidableEq

/-- Lines 952-955: counters start at zero, the volume number at one, the
buffer and the output empty. -/
def initialLoopState : LoopState β :=
  { processedCount := 0, successCount := 0, currentVolume := 1,
    currentSources := [], volumes := [] }

/-- Slicing a list into chunks of n, the for loop with index step n and
slice(i, i + n); fuel is one unit per chunk. -/
def chunksOfGo (n : Nat) : Nat → List α → List (List α)
  | 0, l => if l.isEmpty then [] else [l]
  | fuel + 1, l =>
    if l.isEmpty then [] else l.take n :: chunksOfGo n fuel (l.drop n)

/-- The chunking of the main loop. -/
def chunksOf (n : Nat) (l : List α) : List (List α) :=
  chunksOfGo n l.length l

/-- Lines 964-970: account one result of the chunk. -/
def applyResult (s : LoopState β) (res : Option β) : LoopState β :=
  { s with
    processedCount := s.processedCount + 1
    successCount :=
      match res with
      | some _ => s.successCount + 1
      | none => s.successCount
    currentSources :=
      match res with
      | some d => s.currentSources ++ [d]
      | none => s.currentSources }

/-- Lines 974-978: after a chunk, flush a volume exactly when the success
count is positive, divisible by DOCS_PER_FILE and the buffer non-empty. -/
def flushCheck (docsPerFile : Nat) (s : LoopState β) : LoopState β :=
  if 0 < s.successCount ∧ s.successCount % docsPerFile = 0 ∧
      0 < s.currentSources.length then
    { s with
      volumes := s.volumes ++ [⟨s.currentVolume, s.currentSources⟩]
      currentVolume := s.currentVolume + 1
      currentSources := [] }
  else s

/-- One iteration of the chunk loop, lines 959-979. -/
def stepChunk (docsPerFile : Nat) (s : LoopState β) (results : List (Option β)) :
    LoopState β :=
  flushCheck docsPerFile (results.foldl applyResult s)

/-- The whole chunk loop over prepared per-chunk results. -/
def runChunks (docsPerFile : Nat) (s : LoopState β)
    (chunks : List (List (Option β))) : LoopState β :=
  chunks.foldl (stepChunk docsPerFile) s

/-- Lines 959-979: the processing loop over the link array, with the
per-link outcome function f. -/
def processPhase (docsPerFile : Nat) (links : List α) (f : α → Option β) :
    LoopState β :=
  runChunks docsPerFile initialLoopState
    ((chunksOf 3 links).map fun chunk => chunk.map f)

/-- Lines 981-983: the leftover volume written after the loop when the
buffer is non-empty. -/
def finalFlush (s : LoopState β) : LoopState β :=
  if 0 < s.currentSources.length then
    { s with volumes := s.volumes ++ [⟨s.currentVolume, s.currentSources⟩] }
  else s

/-! ## The harvest phase and main (src/index.js lines 873-992) -/

/-- The search strategies as oracles: each takes the requested number of
links and returns what the engine produced (the engine may return more or
fewer). -/
structure HarvestOracle where
  semantic : Nat → List String
  arxiv : Nat → List String
  scholar : Nat → List String
  googlePdf : Nat → List String
  stealthPdf : Nat → List String
  wiki : Nat → List String
  rss : Nat → List String
  browser : Nat → List String

/-- The guarded accumulation used all over the harvest phase: push each
new link unless the accumulator already includes it. -/
def dedupPush (acc : List String) (links : List String) : List String :=
  links.foldl (fun a l => if a.contains l then a else a ++ [l]) acc

/-- src/index.js lines 886-940: the harvest phase.  In pdfs mode all five
strategies are dedup-guarded; in the other mode the Wikipedia links are
appended with push(...) and no membership check (line 927). -/
def harvestLinks (contentType : String) (target : Nat) (ho : HarvestOracle) :
    List String :=
  if contentType == "pdfs" then
    let c1 := dedupPush [] (ho.semantic ((target + 1) / 2))
    let c2 := if c1.length < target then dedupPush c1 (ho.arxiv (target - c1.length)) else c1
    let c3 := if c2.length < target then dedupPush c2 (ho.scholar (target - c2.length)) else c2
    let c4 := if c3.length < target then dedupPush c3 (ho.googlePdf (target - c3.length)) else c3
    if c4.length < target then dedupPush c4 (ho.stealthPdf (target - c4.length)) else c4
  else
    let c1 := ho.wiki ((target + 1) / 2)
    let c2 := if c1.length < target then dedupPush c1 (ho.rss (target - c1.length)) else c1
    if c2.length < target then dedupPush c2 (ho.browser (target - c2.length)) else c2

/-- How the script ends: a process.exit call, or default termination after
the loop with the final loop state. -/
inductive MainOutcome (β : Type)
  | exited (code : Nat)
  | completed (final : LoopState β)
deriving Repr, DecidableEq

/-- src/index.js lines 873-992: harvest, the zero-link check with
process.exit(1) on lines 944-948 (the only process.exit of the script),
then slice to TARGET_DOCS, the chunked loop, and the leftover flush. -/
def mainScript (contentType : String) (target docsPerFile : Nat)
    (ho : HarvestOracle) (f : String → Option β) : MainOutcome β :=
  let collectedLinks := harvestLinks contentType target ho
  if collectedLinks.length = 0 then
    MainOutcome.exited 1
  else
    let linksArray := collectedLinks.take target
    MainOutcome.completed (finalFlush (processPhase docsPerFile linksArray f))

/-! ## stealthSearch (src/stealth_search.js lines 672-709) -/

/-- The engine loop: stop as soon as enough links are collected, otherwise
ask the next engine for the remaining count and merge its results with the
membership guard. -/
def stealthLoop (maxLinks : Nat) :
    List (Nat → List String) → List String → List String
  | [], links => links
  | e :: rest, links =>
    if maxLinks ≤ links.length then links
    else stealthLoop maxLinks rest (dedupPush links (e (maxLinks - links.length)))

/-- src/stealth_search.js lines 672-709: stealthSearch over its six search
engines, modelled as oracle functions from the requested count to the
returned links. -/
def stealthSearch (engines : List (Nat → List String)) (maxLinks : Nat) :
    List String :=
  stealthLoop maxLinks engines []

/-! ## The scraper enforcement loop (src/scraper.js lines 33-116) -/

/-- The per-topic loop state: downloaded count, search page number and the
consecutive-failure counter (lines 34-36). -/
structure ScrapeState where
  downloadedCount : Nat
  pageNum : Nat
  consecutiveFailures : Nat
deriving Repr, DecidableEq

/-- One search-result candidate link: whether it starts with http and
whether verifyAndDownload saves a valid PDF for it (a throw inside the
inner try counts as no download, line 88). -/
structure Candidate where
  isHttp : Bool
  download : Bool
deriving Repr, DecidableEq

/-- The outcome of one iteration of the while loop: the page navigation
threw, or it produced a candidate list (possibly empty). -/
inductive PageOutcome
  | pageError
  | results (cands : List Candidate)

/-- Line 40: the while guard. -/
def scraperGuard (target : Nat) (s : ScrapeState) : Bool :=
  s.downloadedCount < target && s.consecutiveFailures < 5

/-- Lines 70-91: the download loop over the candidates, breaking at the
target; returns the new downloaded count and filesFoundOnPage. -/
def processCands (target : Nat) : Nat → Nat → List Candidate → Nat × Nat
  | d, found, [] => (d, found)
  | d, found, c :: rest =>
    if target ≤ d then (d, found)
    else if c.isHttp && c.download then processCands target (d + 1) (found + 1) rest
    else processCands target d found rest

/-- Lines 49-106: one iteration of the enforcement loop. -/
def scraperStep (target : Nat) (s : ScrapeState) (out : PageOutcome) :
    ScrapeState :=
  match out with
  | PageOutcome.pageError =>
    { s with consecutiveFailures := s.consecutiveFailures + 1 }
  | PageOutcome.results cands =>
    if cands.length = 0 then
      { s with consecutiveFailures := s.consecutiveFailures + 1,
               pageNum := s.pageNum + 1 }
    else
      let df := processCands target s.downloadedCount 0 cands
      { downloadedCount := df.1
        pageNum := s.pageNum + 1
        consecutiveFailures := if df.2 = 0 then s.consecutiveFailures + 1 else 0 }

/-- The enforcement loop run with fuel: none when the fuel runs out while
the guard still holds, otherwise the state at which the guard fails.  The
iteration index feeds the oracle of page outcomes. -/
def runScraper (target : Nat) (outs : Nat → PageOutcome) :
    Nat → Nat → ScrapeState → Option ScrapeState
  | 0, _, s => if scraperGuard target s then none else some s
  | fuel + 1, i, s =>
    if scraperGuard target s then
      runScraper target outs fuel (i + 1) (scraperStep target s (outs i))
    else some s

/-- Line 34-36: the initial per-topic state. -/
def initialScrapeState : ScrapeState :=
  { downloadedCount := 0, pageNum := 1, consecutiveFailures := 0 }

/-! ## Values used by the claim statements -/

/-- The character set the sanitized output may use: printable ASCII,
newline or tab. -/
def goodChar (c : Char) : Bool :=
  isPrintableAscii c || c == '\n' || c == '\t'

/-- A measure for the enforcement loop: strictly decreasing across
iterations taken under a true guard. -/
def scraperMeasure (target : Nat) (s : ScrapeState) : Nat :=
  6 * (target - s.downloadedCount) + (5 - s.consecutiveFailures)

/-- A plain two-line text whose first line ends in a space: sanitizeContent
maps it to itself (every noise pattern misses it), so the adjacent space
and newline survive sanitization and are then collapsed by formatOutput. -/
def c5Input : String :=
  "the first sample line has plenty of letters \nthe second sample line also has many letters here."

/-- A 51200-byte file starting with 1024 zero bytes: the PDF magic first
occurs at offset 1024, outside the first 1024 bytes. -/
def c4FileBytes : List Nat :=
  List.replicate 1024 0 ++ (pdfMagic ++ List.replicate 50172 32)

/-- A computation that records no event and keeps the trace it was given:
holds for every per-link computation built only from oracle calls and pure
control flow. -/
def TracePure (m : EM α) : Prop :=
  ∀ s, m s = ((m s).1, s)

/-! # Lemmas -/

/-- Characters of a global replacement either come from a replacement
string or from the input. -/
theorem replaceScan_mem {m : List Char → Option (Nat × List Char)}
    {R : Char → Prop}
    (hm : ∀ l len repl, m l = some (len, repl) → ∀ c ∈ repl, R c) :
    ∀ fuel l c, c ∈ replaceScan m fuel l → R c ∨ c ∈ l := by
  intro fuel
  induction fuel with
  | zero =>
    intro l c hc
    right
    simpa [replaceScan] using hc
  | succ n ih =>
    intro l c hc
    cases l with
    | nil => simp [replaceScan] at hc
    | cons a rest =>
      rw [replaceScan] at hc
      cases hme : m (a :: rest) with
      | none =>
        rw [hme] at hc
        rcases List.mem_cons.mp hc with h | h
        · exact Or.inr (by simp [h])
        · rcases ih rest c h with h' | h'
          · exact Or.inl h'
          · exact Or.inr (List.mem_cons_of_mem _ h')
      | some p =>
        obtain ⟨len, repl⟩ := p
        rw [hme] at hc
        dsimp only at hc
        by_cases hlen : len = 0
        · rw [if_pos hlen] at hc
          rcases List.mem_cons.mp hc with h | h
          · exact Or.inr (by simp [h])
          · rcases ih rest c h with h' | h'
            · exact Or.inl h'
            · exact Or.inr (List.mem_cons_of_mem _ h')
        · rw [if_neg hlen] at hc
          rcases List.mem_append.mp hc with h | h
          · exact Or.inl (hm _ _ _ hme c h)
          · rcases ih _ c h with h' | h'
            · exact Or.inl h'
            · exact Or.inr (List.drop_subset _ _ h')

/-- With enough fuel, when unmatched heads are good and replacements are
good and nonempty-match, every character of the output is good. -/
theorem replaceScan_all {m : List Char → Option (Nat × List Char)}
    {R : Char → Prop}
    (hnone : ∀ a rest, m (a :: rest) = none → R a)
    (hsome : ∀ l len repl, m l = some (len, repl) →
      (∀ c ∈ repl, R c) ∧ 1 ≤ len) :
    ∀ fuel l, l.length ≤ fuel → ∀ c ∈ replaceScan m fuel l, R c := by
  intro fuel
  induction fuel with
  | zero =>
    intro l hl c hc
    have hnil : l = [] := List.length_eq_zero.mp (Nat.le_zero.mp hl)
    subst hnil
    simp [replaceScan] at hc
  | succ n ih =>
    intro l hl c hc
    cases l with
    | nil => simp [replaceScan] at hc
    | cons a rest =>
      rw [replaceScan] at hc
      cases hme : m (a :: rest) with
      | none =>
        rw [hme] at hc
        rcases List.mem_cons.mp hc with h | h
        · rw [h]; exact hnone a rest hme
        · exact ih rest (by simpa using Nat.le_of_succ_le_succ hl) c h
      | some p =>
        obtain ⟨len, repl⟩ := p
        have hs := hsome _ _ _ hme
        have hlen1 : ¬ len = 0 := by omega
        rw [hme] at hc
        dsimp only at hc
        rw [if_neg hlen1] at hc
        rcases List.mem_append.mp hc with h | h
        · exact hs.1 c h
        · refine ih _ ?_ c h
          have := List.length_drop len (a :: rest)
          simp only [List.length_cons] at hl this
          omega

/-- The head of dropWhile does not satisfy the dropped predicate. -/
theorem head?_dropWhile_not (p : α → Bool) :
    ∀ l : List α, ∀ c, (l.dropWhile p).head? = some c → p c = false := by
  intro l
  induction l with
  | nil => intro c hc; simp at hc
  | cons a rest ih =>
    intro c hc
    rw [List.dropWhile_cons] at hc
    by_cases hpa : p a
    · rw [if_pos hpa] at hc
      exact ih c hc
    · rw [if_neg hpa] at hc
      simp only [List.head?_cons, Option.some.injEq] at hc
      rw [hc] at hpa
      simpa using hpa

/-- Characters of the trimmed list come from the list. -/
theorem mem_jsTrimL {l : List Char} {c : Char} (hc : c ∈ jsTrimL l) : c ∈ l := by
  unfold jsTrimL at hc
  rw [List.mem_reverse] at hc
  have h1 := (List.dropWhile_suffix (l := (l.dropWhile isJsWs).reverse) isJsWs).subset hc
  rw [List.mem_reverse] at h1
  exact (List.dropWhile_suffix isJsWs).subset h1

/-- The trimmed list does not start with whitespace. -/
theorem jsTrimL_head (l : List Char) :
    ((jsTrimL l).head?.all fun c => ! isJsWs c) = true := by
  unfold jsTrimL
  set m := l.dropWhile isJsWs with hm
  set y := m.reverse.dropWhile isJsWs with hy
  have hyp : y.reverse <+: m := by
    have hsuf : (y.reverse).reverse <:+ m.reverse := by
      simpa [hy] using List.dropWhile_suffix (l := m.reverse) isJsWs
    exact (List.reverse_suffix).mp (by simpa using hsuf)
  obtain ⟨t, ht⟩ := hyp
  cases hhead : y.reverse.head? with
  | none => simp [hhead]
  | some c =>
    have hmh : m.head? = some c := by
      rw [← ht, List.head?_append, hhead]
      rfl
    have := head?_dropWhile_not isJsWs l c (by simpa [hm] using hmh)
    simp [hhead, this]

/-- The trimmed list does not end with whitespace. -/
theorem jsTrimL_getLast (l : List Char) :
    ((jsTrimL l).getLast?.all fun c => ! isJsWs c) = true := by
  unfold jsTrimL
  rw [List.getLast?_reverse]
  cases hhead : ((l.dropWhile isJsWs).reverse.dropWhile isJsWs).head? with
  | none => simp
  | some c =>
    have := head?_dropWhile_not isJsWs (l.dropWhile isJsWs).reverse c hhead
    simp [this]

/-- The final character pass of sanitizeContent leaves only printable
ASCII, newlines and tabs. -/
theorem mem_replaceAll_nonPrintable {l : List Char} {c : Char}
    (hc : c ∈ replaceAll matchNonPrintable l) : goodChar c = true := by
  refine replaceScan_all (R := fun c => goodChar c = true) ?_ ?_ l.length l le_rfl c hc
  · intro a rest h
    unfold matchNonPrintable at h
    dsimp only at h
    by_cases hg : isPrintableAscii a || a == '\n' || a == '\t'
    · simpa [goodChar] using hg
    · rw [if_neg hg] at h
      exact absurd h (by simp)
  · intro l' len repl h
    unfold matchNonPrintable at h
    cases l' with
    | nil => exact absurd h (by simp)
    | cons a rest =>
      dsimp only at h
      by_cases hg : isPrintableAscii a || a == '\n' || a == '\t'
      · rw [if_pos hg] at h
        exact absurd h (by simp)
      · rw [if_neg hg] at h
        simp only [Option.some.injEq, Prod.mk.injEq] at h
        constructor
        · intro d hd
          rw [← h.2] at hd
          simp only [List.mem_singleton] at hd
          subst hd
          decide
        · omega

/-- The space-and-tab collapse only ever inserts a space. -/
theorem matchSpaceTabRun_repl {l : List Char} {len : Nat} {repl : List Char}
    (h : matchSpaceTabRun l = some (len, repl)) :
    ∀ c ∈ repl, goodChar c = true := by
  cases l with
  | nil => exact absurd h (by simp [matchSpaceTabRun])
  | cons a rest =>
    unfold matchSpaceTabRun at h
    dsimp only at h
    by_cases hg : a == ' ' || a == '\t'
    · rw [if_pos hg] at h
      simp only [Option.some.injEq, Prod.mk.injEq] at h
      intro c hc
      rw [← h.2] at hc
      simp only [List.mem_singleton] at hc
      subst hc
      decide
    · rw [if_neg hg] at h
      exact absurd h (by simp)

/-- The triple-newline collapse only ever inserts newlines. -/
theorem matchTripleNewline_repl {l : List Char} {len : Nat} {repl : List Char}
    (h : matchTripleNewline l = some (len, repl)) :
    ∀ c ∈ repl, goodChar c = true := by
  have hrepl : repl = ['\n', '\n'] := by
    unfold matchTripleNewline at h
    split at h
    · dsimp only at h
      split at h
      · simp only [Option.some.injEq, Prod.mk.injEq] at h
        exact h.2.symm
      · exact absurd h (by simp)
    · exact absurd h (by simp)
  subst hrepl
  intro c hc
  simp only [List.mem_cons, List.not_mem_nil, or_false] at hc
  rcases hc with hc | hc <;> (subst hc; decide)

/-- The character list of a built string. -/
theorem string_mk_data (l : List Char) : (String.mk l).data = l := rfl

/-- The final passes of sanitizeContent produce only printable ASCII,
newlines and tabs. -/
theorem finalPasses_charset (x : List Char) :
    ∀ c ∈ jsTrimL (replaceAll matchTripleNewline
      (replaceAll matchSpaceTabRun (replaceAll matchNonPrintable x))),
      goodChar c = true := by
  intro c hc
  have hc3 := mem_jsTrimL hc
  unfold replaceAll at hc3
  rcases replaceScan_mem (R := fun c => goodChar c = true)
      (fun _ _ _ h => matchTripleNewline_repl h) _ _ c hc3 with h3 | h3
  · exact h3
  rcases replaceScan_mem (R := fun c => goodChar c = true)
      (fun _ _ _ h => matchSpaceTabRun_repl h) _ _ c h3 with h2 | h2
  · exact h2
  exact mem_replaceAll_nonPrintable h2

/-! # Claim theorems -/

/-- C10: for every input, the output of sanitizeContent contains only
printable ASCII characters (x20 through x7E), newlines and tabs, and has
no leading or trailing whitespace; a null or empty input returns the empty
string. -/
theorem c10_sanitizeContent_charset (t : Option String) :
    ((sanitizeContent t).data.all goodChar = true) ∧
    (((sanitizeContent t).data.head?.all fun c => ! isJsWs c) = true) ∧
    (((sanitizeContent t).data.getLast?.all fun c => ! isJsWs c) = true) ∧
    sanitizeContent none = "" ∧ sanitizeContent (some "") = "" := by
  have hsteps : ∀ l : List Char, sanitizeSteps l =
      jsTrimL (replaceAll matchTripleNewline (replaceAll matchSpaceTabRun
        (replaceAll matchNonPrintable
          (List.intercalate ['\n']
            (List.filter lineKeep
              (List.splitOn '\n'
                (replaceAll (matchLitCI "(pdf)")
                (replaceAll (matchLitCI "(jpg)")
                (replaceAll matchRefQuote
                (replaceAll matchRetrievedMDY
                (replaceAll matchRetrievedDMY
                (replaceAll matchArchived
                (replaceAll (matchLitCI "[hide]")
                (replaceAll (matchLitCI "[show]")
                (replaceAll (matchLitCI "[edit]")
                (replaceAll (matchLitCI "[citation needed]")
                (replaceAll matchBracketNum
                (replaceAll matchRefLine
                (replaceAll matchSpecialToken
                (replaceAll matchCorrupt2
                (replaceAll matchCorrupt1 l))))))))))))))))))))) :=
    by intro l; unfold sanitizeSteps; rfl
  cases t with
  | none => exact ⟨rfl, rfl, rfl, rfl, rfl⟩
  | some s =>
    by_cases hs : s = ""
    · subst hs
      exact ⟨rfl, rfl, rfl, rfl, rfl⟩
    · have hrw : sanitizeContent (some s) = ⟨sanitizeSteps s.data⟩ := by
        unfold sanitizeContent
        dsimp only
        rw [if_neg hs]
      rw [hrw, string_mk_data]
      refine ⟨?_, ?_, ?_, rfl, rfl⟩
      · rw [hsteps, List.all_eq_true]
        intro c hc
        exact finalPasses_charset _ c hc
      · rw [hsteps]
        exact jsTrimL_head _
      · rw [hsteps]
        exact jsTrimL_getLast _

/-- containsSeq decides contiguous containment. -/
theorem containsSeq_infix_iff [BEq α] [LawfulBEq α] (pat : List α) :
    ∀ l : List α, containsSeq pat l = true ↔ pat <:+: l := by
  intro l
  induction l with
  | nil =>
    rw [containsSeq]
    simp [List.isPrefixOf_iff_prefix]
  | cons a rest ih =>
    rw [containsSeq, List.infix_cons_iff]
    simp [List.isPrefixOf_iff_prefix, ih]

/-- C4 (code_bug): on a 51200-byte file whose only PDF magic lies at
offset 1024, isRealPDF as implemented returns true (fs.readFileSync
ignores the start and end options, so the whole file is scanned), while
the claimed behaviour, scanning only the first 1024 bytes, returns
false. -/
theorem c4_isRealPDF_code_bug :
    isRealPDF (some c4FileBytes) = true ∧
    isRealPDFClaimed (some c4FileBytes) = false := by
  have hmaglen : pdfMagic.length = 4 := rfl
  have hlen : c4FileBytes.length = 51200 := by
    unfold c4FileBytes
    rw [List.length_append, List.length_append, List.length_replicate,
      List.length_replicate, hmaglen]
  have htake4 : c4FileBytes.take 4 = List.replicate 4 0 := by
    unfold c4FileBytes
    rw [List.take_append_of_le_length (by rw [List.length_replicate]; norm_num),
      List.take_replicate]
    norm_num
  have htake1024 : c4FileBytes.take 1024 = List.replicate 1024 (0 : Nat) := by
    unfold c4FileBytes
    rw [List.take_append_of_le_length (by rw [List.length_replicate]),
      List.take_replicate]
    norm_num
  have hcontains : containsSeq pdfMagic c4FileBytes = true := by
    rw [containsSeq_infix_iff]
    refine ⟨List.replicate 1024 0, List.replicate 50172 32, ?_⟩
    rw [List.append_assoc]
    rfl
  have hnotfirst : ¬ containsSeq pdfMagic (c4FileBytes.take 1024) = true := by
    rw [htake1024, containsSeq_infix_iff]
    intro hinf
    have h37 : (0x25 : Nat) ∈ List.replicate 1024 (0 : Nat) :=
      hinf.subset (by decide)
    have := List.eq_of_mem_replicate h37
    norm_num at this
  constructor
  · unfold isRealPDF
    dsimp only
    rw [if_neg (by rw [hlen]; unfold MIN_SIZE_BYTES; norm_num),
      if_neg (by rw [htake4]; decide)]
    exact hcontains
  · unfold isRealPDFClaimed
    dsimp only
    rw [Bool.and_eq_false_iff]
    right
    rw [Bool.or_eq_false_iff]
    constructor
    · rw [decide_eq_false_iff_not]
      rw [htake4]
      decide
    · rw [Bool.eq_false_iff]
      exact hnotfirst

/-- Characters survive edge-underscore stripping only from the input. -/
theorem mem_stripEdgeUnderscores {l : List Char} {c : Char}
    (hc : c ∈ stripEdgeUnderscores l) : c ∈ l := by
  unfold stripEdgeUnderscores at hc
  dsimp only at hc
  have key : ∀ m : List Char, (match m with
      | '_' :: r => r
      | r => r) ⊆ m := by
    intro m d hd
    split at hd
    · exact List.mem_cons_of_mem _ hd
    · exact hd
  split at hc
  all_goals first
    | exact key l (List.dropLast_subset _ hc)
    | exact key l hc

/-- The underscore-run collapse only ever inserts an underscore. -/
theorem matchUnderscoreRun_repl {l : List Char} {len : Nat} {repl : List Char}
    (h : matchUnderscoreRun l = some (len, repl)) :
    ∀ c ∈ repl, c = '_' := by
  have hrepl : repl = ['_'] := by
    unfold matchUnderscoreRun at h
    split at h
    · simp only [Option.some.injEq, Prod.mk.injEq] at h
      exact h.2.symm
    · exact absurd h (by simp)
  subst hrepl
  intro c hc
  simpa using hc

/-- Every character of the sanitized query is an ASCII letter, digit or
underscore. -/
theorem sanitizeQueryJS_chars (q : String) :
    ∀ c ∈ (sanitizeQueryJS q).data, isAsciiAlnum c = true ∨ c = '_' := by
  intro c hc
  unfold sanitizeQueryJS at hc
  rw [string_mk_data] at hc
  rcases List.mem_map.mp hc with ⟨d, _, hd⟩
  by_cases hda : isAsciiAlnum d
  · rw [if_pos hda] at hd
    exact Or.inl (hd ▸ hda)
  · rw [if_neg hda] at hd
    exact Or.inr hd.symm

/-- C6 (amended): the volume file names equal the fixed templates around
the sanitized query, and the query-derived portion (the sanitized query,
and in generateResearchPDF the collapsed and stripped safe topic) contains
only ASCII letters, digits and underscores. -/
theorem c6_volume_names_sanitized (q : String) (n : Nat) :
    savePDFVolumeName n q =
      "Volume_" ++ Nat.repr n ++ "_(" ++ sanitizeQueryJS q ++ ").pdf" ∧
    saveVolumeName n q =
      "Volume_" ++ Nat.repr n ++ "_(" ++ sanitizeQueryJS q ++ ").txt" ∧
    generateResearchPDFName n q =
      (⟨safeTopic q⟩ : String) ++ "_Research_File_" ++ Nat.repr n ++ ".pdf" ∧
    (∀ c ∈ (sanitizeQueryJS q).data, isAsciiAlnum c = true ∨ c = '_') ∧
    (∀ c ∈ safeTopic q, isAsciiAlnum c = true ∨ c = '_') := by
  refine ⟨rfl, rfl, rfl, sanitizeQueryJS_chars q, ?_⟩
  intro c hc
  unfold safeTopic at hc
  have h1 : c ∈ replaceAll matchUnderscoreRun (sanitizeQueryJS q).data :=
    mem_stripEdgeUnderscores hc
  unfold replaceAll at h1
  rcases replaceScan_mem (R := fun c => c = '_')
      (fun _ _ _ h => matchUnderscoreRun_repl h) _ _ c h1 with h | h
  · exact Or.inr h
  · exact sanitizeQueryJS_chars q c h

/-- Witness for the amended C6 theorem at a concrete query. -/
theorem c6_volume_names_sanitized_witness :
    'a' ∈ (sanitizeQueryJS "a b").data ∧
    (isAsciiAlnum 'a' = true ∨ 'a' = '_') :=
  ⟨by decide, (c6_volume_names_sanitized "a b" 1).2.2.2.1 'a' (by decide)⟩

/-- C6 counterexample: for the query a_b, the underscore is a character of
the query outside [a-zA-Z0-9] and it appears in the produced file name,
refuting the claim that no such character of the query appears there. -/
theorem c6_claim_counterexample :
    '_' ∈ ("a_b" : String).data ∧ isAsciiAlnum '_' = false ∧
    '_' ∈ (savePDFVolumeName 1 "a_b").data := by
  refine ⟨by decide, by decide, ?_⟩
  decide

/-- A list of whitespace only has no words. -/
theorem tokCount_all_ws {t : List Char} (ht : ∀ c ∈ t, isJsWs c = true) :
    ∀ b, tokCount b t = 0 := by
  induction t with
  | nil => intro b; rfl
  | cons c rest ih =>
    intro b
    rw [tokCount]
    rw [if_pos (ht c (by simp))]
    exact ih (fun d hd => ht d (List.mem_cons_of_mem _ hd)) false

/-- Appending trailing whitespace does not change the word count. -/
theorem tokCount_append_ws {t : List Char} (ht : ∀ c ∈ t, isJsWs c = true) :
    ∀ (l : List Char) (b : Bool), tokCount b (l ++ t) = tokCount b l := by
  intro l
  induction l with
  | nil =>
    intro b
    rw [List.nil_append, tokCount_all_ws ht b]
    rfl
  | cons c rest ih =>
    intro b
    rw [List.cons_append, tokCount, tokCount]
    by_cases hws : isJsWs c
    · rw [if_pos hws, if_pos hws, ih false]
    · rw [if_neg hws, if_neg hws, ih true]

/-- Dropping leading whitespace does not change the word count. -/
theorem tokCount_dropWhile_ws (l : List Char) :
    tokCount false (l.dropWhile isJsWs) = tokCount false l := by
  induction l with
  | nil => rfl
  | cons c rest ih =>
    rw [List.dropWhile_cons]
    by_cases hws : isJsWs c
    · rw [if_pos hws, ih, tokCount, if_pos hws]
    · rw [if_neg hws]

/-- Trimming does not change the word count. -/
theorem tokCount_jsTrimL (l : List Char) :
    tokCount false (jsTrimL l) = tokCount false l := by
  unfold jsTrimL
  set m := l.dropWhile isJsWs with hm
  have hdecomp : m = ((m.reverse.dropWhile isJsWs).reverse : List Char) ++
      (m.reverse.takeWhile isJsWs).reverse := by
    have := List.takeWhile_append_dropWhile isJsWs m.reverse
    calc m = m.reverse.reverse := (List.reverse_reverse m).symm
    _ = (m.reverse.takeWhile isJsWs ++ m.reverse.dropWhile isJsWs).reverse := by
          rw [this]
    _ = (m.reverse.dropWhile isJsWs).reverse ++ (m.reverse.takeWhile isJsWs).reverse := by
          rw [List.reverse_append]
  have hws : ∀ c ∈ (m.reverse.takeWhile isJsWs).reverse, isJsWs c = true := by
    intro c hc
    rw [List.mem_reverse] at hc
    exact List.mem_takeWhile_imp hc
  calc tokCount false (m.reverse.dropWhile isJsWs).reverse
      = tokCount false ((m.reverse.dropWhile isJsWs).reverse ++
          (m.reverse.takeWhile isJsWs).reverse) := (tokCount_append_ws hws _ false).symm
    _ = tokCount false m := by rw [← hdecomp]
    _ = tokCount false l := tokCount_dropWhile_ws l

/-- Base case of the split-count agreement. -/
theorem splitWs_filter_tokCount_nil :
    (∀ cur : List Char,
      ((splitWsGo cur []).filter fun w => 0 < w.length).length =
        (if cur.isEmpty then 0 else 1) + tokCount (! cur.isEmpty) []) ∧
    (((splitWsAux ([] : List Char)).filter fun w => 0 < w.length).length =
      tokCount false []) := by
  constructor
  · intro cur
    rw [splitWsGo, tokCount]
    by_cases hcur : cur = []
    · subst hcur; rfl
    · have hrev : cur.reverse ≠ [] := by simpa using hcur
      rw [List.filter_cons]
      rw [if_pos (by simpa [Nat.pos_iff_ne_zero] using hrev)]
      simp [List.isEmpty_iff, hcur]
  · rfl

/-- The filtered split of the word counter agrees with the single-pass
word count: joint statement for the two mutually recursive split
functions, by strong induction on the list length. -/
theorem splitWs_filter_tokCount :
    ∀ n : Nat, ∀ l : List Char, l.length ≤ n →
      (∀ cur : List Char,
        ((splitWsGo cur l).filter fun w => 0 < w.length).length =
          (if cur.isEmpty then 0 else 1) + tokCount (! cur.isEmpty) l) ∧
      (((splitWsAux l).filter fun w => 0 < w.length).length =
        tokCount false l) := by
  intro n
  induction n with
  | zero =>
    intro l hl
    have hnil : l = [] := List.length_eq_zero.mp (Nat.le_zero.mp hl)
    subst hnil
    exact splitWs_filter_tokCount_nil
  | succ k ih =>
    intro l hl
    cases l with
    | nil => exact splitWs_filter_tokCount_nil
    | cons c rest =>
      have hrest := ih rest (by simpa using Nat.le_of_succ_le_succ hl)
      constructor
      · intro cur
        rw [splitWsGo]
        by_cases hws : isJsWs c
        · rw [if_pos hws, List.filter_cons, tokCount, if_pos hws]
          by_cases hcur : cur = []
          · subst hcur
            rw [if_neg (by simp)]
            rw [hrest.2]
            simp
          · have hrev : cur.reverse ≠ [] := by simpa using hcur
            rw [if_pos (by simpa [Nat.pos_iff_ne_zero] using hrev)]
            rw [List.length_cons, hrest.2]
            simp [List.isEmpty_iff, hcur]
            omega
        · rw [if_neg hws, (hrest.1 (c :: cur)), tokCount, if_neg hws]
          by_cases hcur : cur = []
          · subst hcur; simp
          · simp [List.isEmpty_iff, hcur]
      · rw [splitWsAux]
        by_cases hws : isJsWs c
        · rw [if_pos hws, hrest.2, tokCount, if_pos hws]
        · rw [if_neg hws, (hrest.1 [c]), tokCount, if_neg hws]
          simp

/-- countWords as implemented (trim, split on whitespace runs, filter,
length) equals the number of maximal non-whitespace runs. -/
theorem countWords_eq_tokCount (s : String) :
    countWords s = tokCount false s.data := by
  unfold countWords jsSplitWs
  rw [(splitWs_filter_tokCount (jsTrimL s.data).length (jsTrimL s.data)
    le_rfl).1 []]
  have h0 : (([] : List Char).isEmpty) = true := rfl
  rw [h0]
  simp only [if_pos, Bool.not_true]
  rw [tokCount_jsTrimL]
  simp

/-- The unfolding of formatOutput, src/index.js lines 99-113. -/
theorem formatOutput_def (now type : String) (title : Option String)
    (url content : String) :
    formatOutput now type title url content =
      { type := type
        title := ⟨(jsOrStr title "Untitled Document").data.filter isPrintableAscii⟩
        url := url
        date := now
        wordCount := countWords
          (jsTrim ⟨replaceAll matchWs2Run (sanitizeContent (some content)).data⟩)
        content :=
          jsTrim ⟨replaceAll matchWs2Run (sanitizeContent (some content)).data⟩ } :=
  rfl

/-- C5 (amended): formatOutput returns a record of exactly the six fields
type, title, url, date, wordCount, content, where the content field is the
sanitized input with whitespace runs of length at least two further
collapsed to single spaces and the result trimmed, the title falls back to
Untitled Document on a falsy input and keeps only printable ASCII, the
date is the clock value, and wordCount counts the whitespace-separated
non-empty words of the content field. -/
theorem c5_formatOutput_fields (now type : String) (title : Option String)
    (url content : String) :
    (formatOutput now type title url content).type = type ∧
    (formatOutput now type title url content).title =
      ⟨(jsOrStr title "Untitled Document").data.filter isPrintableAscii⟩ ∧
    (formatOutput now type title url content).url = url ∧
    (formatOutput now type title url content).date = now ∧
    (formatOutput now type title url content).content =
      jsTrim ⟨replaceAll matchWs2Run (sanitizeContent (some content)).data⟩ ∧
    (formatOutput now type title url content).wordCount =
      tokCount false (formatOutput now type title url content).content.data := by
  rw [formatOutput_def]
  refine ⟨rfl, rfl, rfl, rfl, rfl, ?_⟩
  exact countWords_eq_tokCount _

set_option maxRecDepth 40000 in
/-- C5 counterexample: on a plain two-line input whose first line ends in
a space, the content field differs from the sanitized input text: the
adjacent space and newline survive sanitizeContent but are collapsed by
the extra whitespace pass of formatOutput. -/
theorem c5_content_not_sanitized :
    (formatOutput "2026-01-01T00:00:00.000Z" "WEB" (some "T") "url"
        c5Input).content ≠ sanitizeContent (some c5Input) := by
  decide

/-! Run equations and closure lemmas for the per-link monad. -/

/-- Unfolding of bind in the per-link monad. -/
theorem em_bind (m : EM α) (f : α → EM β) (s : List BrowserEvent) :
    (m >>= f) s = match m s with
      | (Except.ok a, s') => f a s'
      | (Except.error e, s') => (Except.error e, s') := rfl

/-- Unfolding of emit followed by a continuation. -/
theorem emit_bind (e : BrowserEvent) (k : Unit → EM β) (s : List BrowserEvent) :
    (emit e >>= k) s = k () (s ++ [e]) := rfl

/-- Oracle calls record no events. -/
theorem tracePure_emLift (r : Except JsErr α) : TracePure (emLift r) :=
  fun _ => rfl

/-- Pure returns record no events. -/
theorem tracePure_pure (a : α) : TracePure (pure a : EM α) :=
  fun _ => rfl

/-- Sequencing event-free computations is event-free. -/
theorem tracePure_bind {m : EM α} {f : α → EM β} (hm : TracePure m)
    (hf : ∀ a, TracePure (f a)) : TracePure (m >>= f) := by
  intro s
  have h1 := hm s
  cases hr : (m s).1 with
  | ok a =>
    have hms : m s = (Except.ok a, s) := by rw [h1, hr]
    calc (m >>= f) s = f a s := by rw [em_bind, hms]
    _ = ((f a s).1, s) := hf a s
    _ = (((m >>= f) s).1, s) := by rw [em_bind, hms]
  | error e =>
    have hms : m s = (Except.error e, s) := by rw [h1, hr]
    rw [em_bind, hms]

/-- Catching over event-free computations is event-free. -/
theorem tracePure_tryCatch {m h : EM α} (hm : TracePure m)
    (hh : TracePure h) : TracePure (jsTryCatch m h) := by
  intro s
  have h1 := hm s
  cases hr : (m s).1 with
  | ok a =>
    have hms : m s = (Except.ok a, s) := by rw [h1, hr]
    unfold jsTryCatch
    rw [hms]
  | error e =>
    have hms : m s = (Except.error e, s) := by rw [h1, hr]
    calc jsTryCatch m h s = h s := by unfold jsTryCatch; rw [hms]
    _ = ((h s).1, s) := hh s
    _ = ((jsTryCatch m h s).1, s) := by unfold jsTryCatch; rw [hms]

/-- A try/catch with a pure fallback over an event-free body always
returns normally with the trace unchanged. -/
theorem tryCatch_pure_run {m : EM α} (hm : TracePure m) (d : α)
    (s : List BrowserEvent) :
    ∃ r : α, jsTryCatch m (pure d) s = (Except.ok r, s) := by
  have h1 := hm s
  cases hr : (m s).1 with
  | ok a =>
    have hms : m s = (Except.ok a, s) := by rw [h1, hr]
    exact ⟨a, by unfold jsTryCatch; rw [hms]⟩
  | error e =>
    have hms : m s = (Except.error e, s) := by rw [h1, hr]
    exact ⟨d, by unfold jsTryCatch; rw [hms]; rfl⟩

/-- The processPDF body records no events. -/
theorem tracePure_processPDFBody (o : LinkOracle) (mw : Nat) (url : String) :
    TracePure (processPDFBody o mw url) := by
  unfold processPDFBody
  refine tracePure_bind (tracePure_emLift _) fun resp => ?_
  split
  · exact tracePure_pure _
  · split
    · exact tracePure_pure _
    · refine tracePure_bind (tracePure_emLift _) fun data => ?_
      dsimp only
      split
      · exact tracePure_pure _
      · exact tracePure_pure _

/-- processPDF records no events. -/
theorem tracePure_processPDF (o : LinkOracle) (mw : Nat) (url : String) :
    TracePure (processPDF o mw url) :=
  tracePure_tryCatch (tracePure_processPDFBody o mw url) (tracePure_pure _)

/-- The processWebpage body records no events: it only calls oracle
operations and processPDF. -/
theorem tracePure_processWebpageBody (o : LinkOracle) (mw : Nat)
    (url ct : String) : TracePure (processWebpageBody o mw url ct) := by
  unfold processWebpageBody
  refine tracePure_bind (tracePure_emLift _) fun u1 => ?_
  refine tracePure_bind (tracePure_emLift _) fun resp => ?_
  cases resp with
  | none => exact tracePure_pure _
  | some r =>
    dsimp only
    split
    · exact tracePure_bind (tracePure_emLift _) fun _ =>
        tracePure_processPDF o mw url
    · refine tracePure_bind
        (tracePure_tryCatch (tracePure_emLift _) (tracePure_pure _))
        fun u2 => ?_
      refine tracePure_bind (tracePure_emLift _) fun u3 => ?_
      refine tracePure_bind (tracePure_tryCatch ?_ (tracePure_pure _))
        fun s1 => ?_
      · refine tracePure_bind (tracePure_emLift _) fun art => ?_
        cases art with
        | none => exact tracePure_pure _
        | some a =>
          dsimp only
          cases hat : a.textContent with
          | none => exact tracePure_pure _
          | some tc =>
            dsimp only
            split
            · exact tracePure_pure _
            · exact tracePure_pure _
      · dsimp only
        split
        · refine tracePure_bind (tracePure_emLift _) fun t => ?_
          refine tracePure_bind (tracePure_pure _) fun y => ?_
          exact tracePure_bind (tracePure_emLift _) fun u4 => tracePure_pure _
        · refine tracePure_bind (tracePure_pure _) fun y => ?_
          exact tracePure_bind (tracePure_emLift _) fun u4 => tracePure_pure _

/-- processWebpage records no events. -/
theorem tracePure_processWebpage (o : LinkOracle) (mw : Nat)
    (url ct : String) : TracePure (processWebpage o mw url ct) :=
  tracePure_tryCatch (tracePure_processWebpageBody o mw url ct)
    (tracePure_pure _)

/-- processPDF always returns normally and leaves the trace unchanged. -/
theorem processPDF_run (o : LinkOracle) (mw : Nat) (url : String)
    (s : List BrowserEvent) :
    ∃ r : Option DocRecord, processPDF o mw url s = (Except.ok r, s) := by
  unfold processPDF
  exact tryCatch_pure_run (tracePure_processPDFBody o mw url) none s

/-- processWebpage always returns normally and leaves the trace
unchanged. -/
theorem processWebpage_run (o : LinkOracle) (mw : Nat) (url ct : String)
    (s : List BrowserEvent) :
    ∃ r : Option DocRecord, processWebpage o mw url ct s = (Except.ok r, s) := by
  unfold processWebpage
  exact tryCatch_pure_run (tracePure_processWebpageBody o mw url ct) none s

/-- processLink always returns normally; its trace is either unchanged or
extended by exactly one open-context, open-page, close-context triple. -/
theorem processLink_run (o : LinkOracle) (mw : Nat) (ct link : String)
    (s : List BrowserEvent) :
    ∃ r : Option DocRecord,
      processLink o mw ct link s = (Except.ok r, s) ∨
      processLink o mw ct link s =
        (Except.ok r, s ++ [BrowserEvent.openContext, BrowserEvent.openPage,
          BrowserEvent.closeContext]) := by
  unfold processLink
  split
  · obtain ⟨r, hr⟩ := processPDF_run o mw link s
    exact ⟨r, Or.inl hr⟩
  · split
    · split
      · rw [em_bind]
        obtain ⟨r0, hr0⟩ := processPDF_run o mw link s
        rw [hr0]
        dsimp only
        cases r0 with
        | some d => exact ⟨some d, Or.inl rfl⟩
        | none =>
          dsimp only
          rw [emit_bind, emit_bind]
          obtain ⟨r, hr⟩ := processWebpage_run o mw link ct
            ((s ++ [BrowserEvent.openContext]) ++ [BrowserEvent.openPage])
          refine ⟨r, Or.inr ?_⟩
          unfold jsTryFinally
          rw [hr]
          dsimp only [emit]
          rw [List.append_assoc, List.append_assoc]
          rfl
      · exact ⟨none, Or.inl rfl⟩
    · rw [emit_bind, emit_bind]
      obtain ⟨r, hr⟩ := processWebpage_run o mw link ct
        ((s ++ [BrowserEvent.openContext]) ++ [BrowserEvent.openPage])
      refine ⟨r, Or.inr ?_⟩
      unfold jsTryFinally
      rw [hr]
      dsimp only [emit]
      rw [List.append_assoc, List.append_assoc]
      rfl

/-- C2: failures at the network, parsing or validation level inside
per-link processing are caught and logged: under every behaviour of the
fallible operations (each oracle field may throw), processLink and the
helpers processPDF and processWebpage always return normally (with null
on failure), so the main loop always proceeds to the next item. -/
theorem c2_processLink_no_exceptions (o : LinkOracle) (mw : Nat)
    (ct link url : String) (s : List BrowserEvent) :
    ((processLink o mw ct link) s).1.isOk = true ∧
    ((processPDF o mw url) s).1.isOk = true ∧
    ((processWebpage o mw url ct) s).1.isOk = true := by
  refine ⟨?_, ?_, ?_⟩
  · obtain ⟨r, hr | hr⟩ := processLink_run o mw ct link s <;> rw [hr] <;> rfl
  · obtain ⟨r, hr⟩ := processPDF_run o mw url s
    rw [hr]
    rfl
  · obtain ⟨r, hr⟩ := processWebpage_run o mw url ct s
    rw [hr]
    rfl

/-- C7: the browser context and page opened by processLink for one link
are closed before the call returns, also when extraction fails: the event
trace of a call is either empty (no context was opened) or exactly
open-context, open-page, close-context, and in particular the context
opens and closes balance, so nothing stays open when the next link is
processed (closing a Playwright context closes its pages). -/
theorem c7_processLink_context_balance (o : LinkOracle) (mw : Nat)
    (ct link : String) :
    (((processLink o mw ct link) []).2 = [] ∨
      ((processLink o mw ct link) []).2 =
        [BrowserEvent.openContext, BrowserEvent.openPage,
         BrowserEvent.closeContext]) ∧
    (((processLink o mw ct link) []).2.count BrowserEvent.openContext =
      ((processLink o mw ct link) []).2.count BrowserEvent.closeContext) := by
  obtain ⟨r, hr | hr⟩ := processLink_run o mw ct link []
  · rw [hr]
    exact ⟨Or.inl rfl, rfl⟩
  · rw [hr]
    refine ⟨Or.inr rfl, ?_⟩
    rfl

/-- Accounting a chunk of results changes no volume and moves the success
count and the buffer length together. -/
theorem applyResult_fold_inv (results : List (Option β)) :
    ∀ s : LoopState β,
      (results.foldl applyResult s).volumes = s.volumes ∧
      (results.foldl applyResult s).currentVolume = s.currentVolume ∧
      s.successCount + (results.foldl applyResult s).currentSources.length =
        (results.foldl applyResult s).successCount +
          s.currentSources.length := by
  induction results with
  | nil => intro s; exact ⟨rfl, rfl, rfl⟩
  | cons r rest ih =>
    intro s
    rw [List.foldl_cons]
    obtain ⟨hv, hcv, hs⟩ := ih (applyResult s r)
    refine ⟨?_, ?_, ?_⟩
    · rw [hv]; cases r <;> rfl
    · rw [hcv]; cases r <;> rfl
    · cases r with
      | none => exact hs
      | some d =>
        have e1 : (applyResult s (some d)).successCount =
            s.successCount + 1 := rfl
        have e2 : (applyResult s (some d)).currentSources.length =
            s.currentSources.length + 1 := by
          unfold applyResult
          dsimp only
          rw [List.length_append]
          rfl
        omega

/-- The flush check preserves the loop invariant: the success count splits
into flushed volumes plus the buffer, the flushed total is divisible by
DOCS_PER_FILE, and every flushed volume is a positive multiple of it. -/
theorem flushCheck_inv (D : Nat) (s : LoopState β)
    (h1 : s.successCount =
      (s.volumes.map fun v => v.sources.length).sum + s.currentSources.length)
    (h2 : (s.volumes.map fun v => v.sources.length).sum % D = 0)
    (h3 : ∀ v ∈ s.volumes, 0 < v.sources.length ∧ v.sources.length % D = 0) :
    (flushCheck D s).successCount =
      ((flushCheck D s).volumes.map fun v => v.sources.length).sum +
        (flushCheck D s).currentSources.length ∧
    ((flushCheck D s).volumes.map fun v => v.sources.length).sum % D = 0 ∧
    (∀ v ∈ (flushCheck D s).volumes,
      0 < v.sources.length ∧ v.sources.length % D = 0) := by
  unfold flushCheck
  split
  · rename_i hcond
    obtain ⟨hp, hmod, hne⟩ := hcond
    have hlen : s.currentSources.length % D = 0 := by
      have hsum : ((s.volumes.map fun v => v.sources.length).sum +
          s.currentSources.length) % D = 0 := by rw [← h1]; exact hmod
      rw [Nat.add_mod, h2, Nat.zero_add, Nat.mod_mod_of_dvd _ dvd_rfl] at hsum
      exact hsum
    refine ⟨?_, ?_, ?_⟩
    · simp only [List.map_append, List.sum_append, List.map_cons,
        List.map_nil, List.sum_cons, List.sum_nil, List.length_nil]
      omega
    · simp only [List.map_append, List.sum_append, List.map_cons,
        List.map_nil, List.sum_cons, List.sum_nil]
      rw [Nat.add_mod, h2]
      simp [hlen]
    · intro v hv
      simp only at hv
      rcases List.mem_append.mp hv with h | h
      · exact h3 v h
      · rw [List.mem_singleton] at h
        subst h
        exact ⟨hne, hlen⟩
  · exact ⟨h1, h2, h3⟩

/-- The loop invariant across all chunks. -/
theorem runChunks_inv (D : Nat) :
    ∀ (chunks : List (List (Option β))) (s : LoopState β),
      s.successCount =
        (s.volumes.map fun v => v.sources.length).sum +
          s.currentSources.length →
      (s.volumes.map fun v => v.sources.length).sum % D = 0 →
      (∀ v ∈ s.volumes, 0 < v.sources.length ∧ v.sources.length % D = 0) →
      ∀ v ∈ (runChunks D s chunks).volumes,
        0 < v.sources.length ∧ v.sources.length % D = 0 := by
  intro chunks
  induction chunks with
  | nil => intro s h1 _ h3; exact h3
  | cons chunk rest ih =>
    intro s h1 h2 h3
    have hstep : runChunks D s (chunk :: rest) =
        runChunks D (stepChunk D s chunk) rest := by
      unfold runChunks
      rw [List.foldl_cons]
    rw [hstep]
    obtain ⟨hv, _, hs⟩ := applyResult_fold_inv chunk s
    have h1m : (chunk.foldl applyResult s).successCount =
        ((chunk.foldl applyResult s).volumes.map fun v =>
          v.sources.length).sum +
          (chunk.foldl applyResult s).currentSources.length := by
      rw [hv]
      omega
    have h2m : ((chunk.foldl applyResult s).volumes.map fun v =>
        v.sources.length).sum % D = 0 := by rw [hv]; exact h2
    have h3m : ∀ v ∈ (chunk.foldl applyResult s).volumes,
        0 < v.sources.length ∧ v.sources.length % D = 0 := by
      rw [hv]; exact h3
    obtain ⟨k1, k2, k3⟩ := flushCheck_inv D (chunk.foldl applyResult s) h1m h2m h3m
    exact ih (stepChunk D s chunk) k1 k2 k3

/-- C1 (amended): the flush check of the main loop runs once per chunk of
three links and fires exactly when the running success count is a positive
multiple of DOCS_PER_FILE and the buffer is non-empty; hence every volume
written during the loop aggregates a positive multiple of DOCS_PER_FILE
documents (possibly more than one multiple, since the count can jump past
a multiple inside a chunk), and the leftover volume written after the loop
is non-empty but of arbitrary size. -/
theorem c1_loop_volumes_positive_multiples (D : Nat) (links : List α)
    (f : α → Option β) :
    (∀ v ∈ (processPhase D links f).volumes,
      0 < v.sources.length ∧ v.sources.length % D = 0) ∧
    (∀ v ∈ (finalFlush (processPhase D links f)).volumes,
      0 < v.sources.length) := by
  have hloop := runChunks_inv D
    ((chunksOf 3 links).map fun chunk => chunk.map f) initialLoopState
    rfl (Nat.zero_mod D) (by intro v hv; exact absurd hv (List.not_mem_nil v))
  constructor
  · exact hloop
  · intro v hv
    unfold finalFlush at hv
    split at hv
    · rename_i hne
      rcases List.mem_append.mp hv with h | h
      · exact (hloop v h).1
      · rw [List.mem_singleton] at h
        subst h
        exact hne
    · exact (hloop v hv).1

/-- Witness for the amended C1 theorem: with one link, a successful
extraction and DOCS_PER_FILE one, the loop writes one volume of one
document. -/
theorem c1_loop_volumes_witness :
    (⟨1, [10]⟩ : VolumeFile Nat) ∈
      (processPhase 1 [10] (fun n => some n)).volumes ∧
    (0 < ([10] : List Nat).length ∧ ([10] : List Nat).length % 1 = 0) :=
  ⟨by decide,
    (c1_loop_volumes_positive_multiples 1 [10] (fun n => some n)).1
      ⟨1, [10]⟩ (by decide)⟩

/-- C1 counterexample: with DOCS_PER_FILE two and four links that all
succeed, the chunked check misses the multiple at success count three and
fires at four, so the single volume written during the loop holds four
documents, not two: a volume written before the loop ends does not
aggregate exactly DOCS_PER_FILE documents. -/
theorem c1_claim_counterexample :
    ((processPhase 2 [1, 2, 3, 4] (fun n => some n)).volumes.map
      fun v => v.sources.length) = [4] ∧ (4 : Nat) ≠ 2 :=
  ⟨by decide, by decide⟩

/-- The unfolding of mainScript: the zero-link check decides between the
only process.exit of the script and default termination after the loop. -/
theorem mainScript_def (ct : String) (target D : Nat) (ho : HarvestOracle)
    (f : String → Option β) :
    mainScript ct target D ho f =
      if (harvestLinks ct target ho).length = 0 then
        MainOutcome.exited 1
      else
        MainOutcome.completed (finalFlush (processPhase D
          ((harvestLinks ct target ho).take target) f)) := rfl

/-- C3: the script terminates with exit code 1 exactly when the harvest
phase collects zero links; in every other execution no process.exit with a
nonzero code is reached (lines 944-948 hold the only process.exit of the
script) and the script completes the processing loop and the leftover
flush, then terminates by default. -/
theorem c3_exit_code (ct : String) (target D : Nat) (ho : HarvestOracle)
    (f : String → Option β) :
    (mainScript ct target D ho f = MainOutcome.exited 1 ↔
      harvestLinks ct target ho = []) ∧
    (∀ n : Nat, mainScript ct target D ho f = MainOutcome.exited n → n = 1) ∧
    (harvestLinks ct target ho ≠ [] →
      mainScript ct target D ho f =
        MainOutcome.completed (finalFlush (processPhase D
          ((harvestLinks ct target ho).take target) f))) := by
  rw [mainScript_def]
  by_cases hlen : (harvestLinks ct target ho).length = 0
  · rw [if_pos hlen]
    have hnil : harvestLinks ct target ho = [] := List.length_eq_zero.mp hlen
    refine ⟨⟨fun _ => hnil, fun _ => rfl⟩, fun n hn => ?_, fun hne => absurd hnil hne⟩
    cases hn
    rfl
  · rw [if_neg hlen]
    have hne : harvestLinks ct target ho ≠ [] := by
      intro h
      exact hlen (by rw [h]; rfl)
    refine ⟨⟨fun h => ?_, fun h => absurd h hne⟩, fun n hn => ?_, fun _ => rfl⟩
    · exact absurd h (by intro h2; cases h2)
    · cases hn

/-- Witness for C3: with every search strategy returning nothing, the
harvest is empty and the script exits with code 1. -/
theorem c3_exit_code_witness :
    harvestLinks "both" 2
      { semantic := fun _ => [], arxiv := fun _ => [], scholar := fun _ => [],
        googlePdf := fun _ => [], stealthPdf := fun _ => [],
        wiki := fun _ => [], rss := fun _ => [], browser := fun _ => [] } = [] ∧
    mainScript "both" 2 2
      { semantic := fun _ => [], arxiv := fun _ => [], scholar := fun _ => [],
        googlePdf := fun _ => [], stealthPdf := fun _ => [],
        wiki := fun _ => [], rss := fun _ => [], browser := fun _ => [] }
      (fun _ => (none : Option Nat)) = MainOutcome.exited 1 :=
  ⟨by decide,
    (c3_exit_code "both" 2 2 _ (fun _ => (none : Option Nat))).1.mpr (by decide)⟩

/-- The guarded push keeps the accumulator free of duplicates. -/
theorem dedupPush_nodup (links : List String) :
    ∀ acc : List String, acc.Nodup → (dedupPush acc links).Nodup := by
  induction links with
  | nil => intro acc h; exact h
  | cons l rest ih =>
    intro acc h
    unfold dedupPush
    rw [List.foldl_cons]
    apply ih
    split
    · exact h
    · rename_i hc
      have hmem : l ∉ acc := by
        intro hin
        exact hc (List.elem_eq_true_of_mem hin)
      rw [List.nodup_append]
      refine ⟨h, List.nodup_singleton l, ?_⟩
      intro a ha hal
      rw [List.mem_singleton] at hal
      subst hal
      exact hmem ha

/-- A conditional guarded push keeps the accumulator duplicate-free. -/
theorem dedupPush_step_nodup {acc : List String} (h : acc.Nodup)
    (c : Prop) [Decidable c] (x : List String) :
    (if c then dedupPush acc x else acc).Nodup := by
  split
  · exact dedupPush_nodup x acc h
  · exact h

/-- The stealthSearch engine loop keeps its accumulator duplicate-free. -/
theorem stealthLoop_nodup (maxLinks : Nat) :
    ∀ (engines : List (Nat → List String)) (links : List String),
      links.Nodup → (stealthLoop maxLinks engines links).Nodup := by
  intro engines
  induction engines with
  | nil => intro links h; exact h
  | cons e rest ih =>
    intro links h
    rw [stealthLoop]
    split
    · exact h
    · exact ih _ (dedupPush_nodup _ _ h)

/-- C8 (amended): the list returned by stealthSearch is duplicate-free,
and collectedLinks is duplicate-free in pdfs mode, where all five
insertions are guarded; in the other mode the initial Wikipedia links are
appended with no membership check (line 927), so collectedLinks is
duplicate-free provided the Wikipedia links are pairwise distinct. -/
theorem c8_harvest_dedup (engines : List (Nat → List String))
    (maxLinks : Nat) (ct : String) (target : Nat) (ho : HarvestOracle) :
    (stealthSearch engines maxLinks).Nodup ∧
    (harvestLinks "pdfs" target ho).Nodup ∧
    ((ho.wiki ((target + 1) / 2)).Nodup →
      (harvestLinks ct target ho).Nodup) := by
  refine ⟨stealthLoop_nodup maxLinks engines [] List.nodup_nil, ?_, ?_⟩
  · unfold harvestLinks
    rw [if_pos (by rfl)]
    exact dedupPush_step_nodup (dedupPush_step_nodup (dedupPush_step_nodup
      (dedupPush_step_nodup (dedupPush_nodup _ [] List.nodup_nil) _ _) _ _)
        _ _) _ _
  · intro hw
    unfold harvestLinks
    split
    · exact dedupPush_step_nodup (dedupPush_step_nodup (dedupPush_step_nodup
        (dedupPush_step_nodup (dedupPush_nodup _ [] List.nodup_nil) _ _) _ _)
          _ _) _ _
    · exact dedupPush_step_nodup (dedupPush_step_nodup hw _ _) _ _

/-- Witness for the amended C8 theorem at concrete oracles. -/
theorem c8_harvest_dedup_witness :
    ((HarvestOracle.wiki
      { semantic := fun _ => [], arxiv := fun _ => [], scholar := fun _ => [],
        googlePdf := fun _ => [], stealthPdf := fun _ => [],
        wiki := fun _ => ["a", "b"], rss := fun _ => [],
        browser := fun _ => [] } ((2 + 1) / 2)).Nodup) ∧
    (harvestLinks "both" 2
      { semantic := fun _ => [], arxiv := fun _ => [], scholar := fun _ => [],
        googlePdf := fun _ => [], stealthPdf := fun _ => [],
        wiki := fun _ => ["a", "b"], rss := fun _ => [],
        browser := fun _ => [] }).Nodup :=
  ⟨by decide, (c8_harvest_dedup [] 0 "both" 2 _).2.2 (by decide)⟩

/-- C8 counterexample: in the non-pdfs mode the Wikipedia links are pushed
without a membership check, so when the engine returns a duplicated link
the collected list holds a duplicate. -/
theorem c8_claim_counterexample :
    ¬ (harvestLinks "both" 2
      { semantic := fun _ => [], arxiv := fun _ => [], scholar := fun _ => [],
        googlePdf := fun _ => [], stealthPdf := fun _ => [],
        wiki := fun _ => ["a", "a"], rss := fun _ => [],
        browser := fun _ => [] }).Nodup := by
  decide

/-- The download loop over candidates: the downloaded count moves exactly
with filesFoundOnPage, and never passes the target. -/
theorem processCands_spec (target : Nat) :
    ∀ (cands : List Candidate) (d found : Nat),
      d + (processCands target d found cands).2 =
        (processCands target d found cands).1 + found ∧
      (d ≤ target → (processCands target d found cands).1 ≤ target) := by
  intro cands
  induction cands with
  | nil =>
    intro d found
    exact ⟨rfl, fun h => h⟩
  | cons c rest ih =>
    intro d found
    simp only [processCands]
    split
    · exact ⟨rfl, fun h => h⟩
    · rename_i ht
      split
      · obtain ⟨h21, h22⟩ := ih (d + 1) (found + 1)
        exact ⟨by omega, fun _ => h22 (by omega)⟩
      · exact ih d found

/-- One iteration under a true guard keeps the bounds, strictly decreases
the measure, and strictly increases the downloaded count or the
consecutive-failure counter. -/
theorem scraperStep_progress (target : Nat) (s : ScrapeState)
    (out : PageOutcome) (hg : scraperGuard target s = true) :
    (scraperStep target s out).downloadedCount ≤ target ∧
    (scraperStep target s out).consecutiveFailures ≤ 5 ∧
    scraperMeasure target (scraperStep target s out) <
      scraperMeasure target s ∧
    (s.downloadedCount < (scraperStep target s out).downloadedCount ∨
      s.consecutiveFailures < (scraperStep target s out).consecutiveFailures) := by
  have hg2 : s.downloadedCount < target ∧ s.consecutiveFailures < 5 := by
    unfold scraperGuard at hg
    simp only [Bool.and_eq_true, decide_eq_true_eq] at hg
    exact hg
  obtain ⟨hd, hf⟩ := hg2
  unfold scraperMeasure
  cases out with
  | pageError =>
    have e1 : (scraperStep target s PageOutcome.pageError).downloadedCount
        = s.downloadedCount := rfl
    have e2 : (scraperStep target s PageOutcome.pageError).consecutiveFailures
        = s.consecutiveFailures + 1 := rfl
    rw [e1, e2]
    exact ⟨le_of_lt hd, by omega, by omega, Or.inr (by omega)⟩
  | results cands =>
    by_cases hn : cands.length = 0
    · have e1 : (scraperStep target s (PageOutcome.results cands)).downloadedCount
          = s.downloadedCount := by
        simp only [scraperStep, if_pos hn]
      have e2 : (scraperStep target s
            (PageOutcome.results cands)).consecutiveFailures
          = s.consecutiveFailures + 1 := by
        simp only [scraperStep, if_pos hn]
      rw [e1, e2]
      exact ⟨le_of_lt hd, by omega, by omega, Or.inr (by omega)⟩
    · have e1 : (scraperStep target s (PageOutcome.results cands)).downloadedCount
          = (processCands target s.downloadedCount 0 cands).1 := by
        simp only [scraperStep, if_neg hn]
      have e2 : (scraperStep target s
            (PageOutcome.results cands)).consecutiveFailures
          = (if (processCands target s.downloadedCount 0 cands).2 = 0
              then s.consecutiveFailures + 1 else 0) := by
        simp only [scraperStep, if_neg hn]
      obtain ⟨hsum, hbound⟩ :=
        processCands_spec target cands s.downloadedCount 0
      have hb := hbound (le_of_lt hd)
      rw [e1, e2]
      by_cases h0 : (processCands target s.downloadedCount 0 cands).2 = 0
      · rw [if_pos h0]
        exact ⟨hb, by omega, by omega, Or.inr (by omega)⟩
      · rw [if_neg h0]
        exact ⟨hb, by omega, by omega, Or.inl (by omega)⟩

/-- Fuel larger than the measure never runs out: the loop always reaches a
state where the guard fails. -/
theorem runScraper_total (target : Nat) (outs : Nat → PageOutcome) :
    ∀ (fuel i : Nat) (s : ScrapeState),
      scraperMeasure target s < fuel →
      (runScraper target outs fuel i s).isSome = true := by
  intro fuel
  induction fuel with
  | zero =>
    intro i s hm
    exact absurd hm (Nat.not_lt_zero _)
  | succ fuel ih =>
    intro i s hm
    rw [runScraper]
    by_cases hg : scraperGuard target s = true
    · rw [if_pos hg]
      have hp := scraperStep_progress target s (outs i) hg
      exact ih (i + 1) _ (by omega)
    · rw [if_neg hg]
      rfl

/-- C9: under a true guard, one iteration of the enforcement loop either
strictly increases downloadedCount or strictly increases
consecutiveFailures, downloadedCount stays at most TARGET_PER_TOPIC and
consecutiveFailures at most 5, and consequently under every sequence of
search-page and download outcomes the while loop exits after finitely many
iterations (6*target+6 iterations always suffice, from any state). -/
theorem c9_scraper_loop_terminates (target : Nat) (outs : Nat → PageOutcome)
    (s : ScrapeState) (i : Nat) (out : PageOutcome)
    (hg : scraperGuard target s = true) :
    ((scraperStep target s out).downloadedCount ≤ target ∧
      (scraperStep target s out).consecutiveFailures ≤ 5) ∧
    (s.downloadedCount < (scraperStep target s out).downloadedCount ∨
      s.consecutiveFailures < (scraperStep target s out).consecutiveFailures) ∧
    (runScraper target outs (6 * target + 6) i s).isSome = true := by
  have hp := scraperStep_progress target s out hg
  refine ⟨⟨hp.1, hp.2.1⟩, hp.2.2.2, ?_⟩
  apply runScraper_total
  unfold scraperMeasure
  omega

/-- Witness for C9: from the initial state with target 2 the guard holds,
and the loop terminates within the fuel bound even when every page
navigation throws. -/
theorem c9_scraper_loop_terminates_witness :
    scraperGuard 2 initialScrapeState = true ∧
    (runScraper 2 (fun _ => PageOutcome.pageError) (6 * 2 + 6) 0
      initialScrapeState).isSome = true :=
  ⟨by decide,
    (c9_scraper_loop_terminates 2 (fun _ => PageOutcome.pageError)
      initialScrapeState 0 PageOutcome.pageError (by decide)).2.2⟩
